import Mathlib

set_option maxHeartbeats 1600000

/-!
# Verification of the deadhand session telemetry hub

Shallow embedding of the daemon core of the `deadhand` repository:
state registry (`packages/daemon/src/config.ts`, registry part),
persistence layer (`packages/daemon/src/persistence.ts`) and the
connection hub (`packages/daemon/src/websocket.ts`).

Modelling conventions:
* JavaScript `Map`s are insertion-ordered association lists
  (`List (String × α)`); `Map.set` replaces in place or appends,
  matching JS semantics.  Where only point lookups matter
  (per-session transcript lists, per-session source-id sets, the
  on-disk per-session transcript logs) a total function
  `String → List _` with default `[]` is used, which is
  observationally the same as a `Map` whose absent keys read as empty.
* ISO-8601 timestamps are modelled as `Nat` clock values; `nanoid`
  event-identifier generation is modelled by a fresh-`Nat` counter
  (the code only ever compares these values for equality).
* The opaque structured payload of a transcript event is modelled as
  an uninterpreted `String`.
* Exceptions (a throwing listener, a throwing `ws.send`) are modelled
  explicitly where a claim is about them: an invocation trace plus an
  aborted flag mirrors JS semantics in which an exception propagates
  out of `forEach` / a `for` loop immediately.
-/

namespace Deadhand

/-! ## Data model (types.ts) -/

/-- `Session.status ∈ {'active','idle','error'}` from types.ts. -/
inductive SessionStatus where
  | active
  | idle
  | error
  deriving DecidableEq, Repr

/-- `TranscriptEventType` from types.ts. -/
inductive TEType where
  | message
  | delta
  | toolStart
  | toolEnd
  | status
  deriving DecidableEq, Repr

/-- `Instance` from types.ts (string metadata fields beyond the ones a
claim mentions are elided; they are never branched on). -/
structure Instance where
  instanceId : String
  app : String
  workspaceName : String
  pid : Nat
  startedAt : Nat
  lastSeenAt : Nat
  deriving DecidableEq, Repr

/-- `Session` from types.ts.  `model` stands for the optional rich
metadata fields (`mode`, `model`, …): one representative optional field
is kept, the others behave identically under `Object.assign` merging. -/
structure Session where
  sessionId : String
  instanceId : String
  title : String
  createdAt : Nat
  status : SessionStatus
  model : Option String
  deriving DecidableEq, Repr

/-- `TranscriptEvent` from types.ts. -/
structure TranscriptEvent where
  eventId : Nat
  sessionId : String
  ts : Nat
  ty : TEType
  payload : String
  sourceId : Option String
  deriving DecidableEq, Repr

/-- `Omit<Instance, 'startedAt' | 'lastSeenAt'>`: the argument of
`registerInstance`. -/
structure InstanceInit where
  instanceId : String
  app : String
  workspaceName : String
  pid : Nat
  deriving DecidableEq, Repr

/-- `Omit<Session, 'createdAt'>`: the argument of `startSession`
(its `instanceId` member is overridden by the first parameter of
`startSession`, exactly as the spread in the source does). -/
structure SessionInit where
  sessionId : String
  instanceId : String
  title : String
  status : SessionStatus
  model : Option String
  deriving DecidableEq, Repr

/-- `Partial<Session>`: the `updates` argument of `updateSession`.
A `some` field is a present key, merged by `Object.assign`; `none` is
an absent key.  (`sessionId` itself is never sent as a differing value
by any caller and is omitted.) -/
structure SessionUpdate where
  instanceId : Option String
  title : Option String
  createdAt : Option Nat
  status : Option SessionStatus
  model : Option (Option String)
  deriving DecidableEq, Repr

/-- `Omit<TranscriptEvent, 'eventId' | 'ts'> & { sourceId?: string }`:
the argument of `addTranscriptEvent`. -/
structure EventInit where
  sessionId : String
  ty : TEType
  payload : String
  sourceId : Option String
  deriving DecidableEq, Repr

/-- `Object.assign(session, updates)` for a `Partial<Session>`. -/
def applyUpdate (s : Session) (u : SessionUpdate) : Session :=
  { sessionId := s.sessionId
    instanceId := u.instanceId.getD s.instanceId
    title := u.title.getD s.title
    createdAt := u.createdAt.getD s.createdAt
    status := u.status.getD s.status
    model := u.model.getD s.model }

/-! ## Association lists modelling insertion-ordered JS `Map`s -/

/-- `Map.set`: replace in place when the key exists, else append. -/
def setA {α : Type} : List (String × α) → String → α → List (String × α)
  | [], k, v => [(k, v)]
  | (k', v') :: rest, k, v =>
    if k' = k then (k, v) :: rest else (k', v') :: setA rest k v

/-- `Map.get`: first binding of the key, if any. -/
def lookupA {α : Type} : List (String × α) → String → Option α
  | [], _ => none
  | (k', v) :: rest, k => if k' = k then some v else lookupA rest k

/-- In-place mutation of the value stored under a key (the JS code
mutates the object held in the `Map` without re-inserting it). -/
def modifyA {α : Type} : List (String × α) → String → (α → α) → List (String × α)
  | [], _, _ => []
  | (k', v) :: rest, k, f =>
    if k' = k then (k', f v) :: rest else (k', v) :: modifyA rest k f

/-- `Map.delete`. -/
def eraseA {α : Type} : List (String × α) → String → List (String × α)
  | [], _ => []
  | (k', v) :: rest, k => if k' = k then rest else (k', v) :: eraseA rest k

/-- Keys of the map, in insertion order. -/
def keysA {α : Type} (m : List (String × α)) : List String :=
  m.map Prod.fst

/-- Pointwise update of a function-modelled map. -/
def updF {α : Type} (f : String → α) (k : String) (v : α) : String → α :=
  fun q => if q = k then v else f q

/-- `Set.add` on a JS `Set<string>` modelled as a duplicate-free list. -/
def addToSet (l : List String) (x : String) : List String :=
  if l.contains x then l else l ++ [x]

/-! ## Durable log (persistence.ts) -/

/-- One line of `sessions.jsonl` (`SessionRecord` in persistence.ts);
`end_` models the `'end'` action. -/
inductive SessionRecord where
  | start (session : Session) (ts : Nat)
  | update (sessionId : String) (updates : SessionUpdate) (ts : Nat)
  | end_ (sessionId : String) (ts : Nat)
  deriving DecidableEq, Repr

/-- Whether a character survives the transcript-file-name regex
`[^a-zA-Z0-9_-]` of `getTranscriptFile` unchanged. -/
def isSafeChar (c : Char) : Bool :=
  c.isAlphanum || c = '_' || c = '-'

/-- `getTranscriptFile`s sanitisation:
`sessionId.replace(/[^a-zA-Z0-9_-]/g, '_')`, character by character. -/
def sanitizeId (s : String) : String :=
  String.mk (s.data.map (fun c => if isSafeChar c then c else '_'))

/-- The session id a lifecycle record addresses during replay. -/
def recordKey : SessionRecord → String
  | SessionRecord.start s _ => s.sessionId
  | SessionRecord.update sid _ _ => sid
  | SessionRecord.end_ sid _ => sid

/-- On-disk state: the single session lifecycle log plus one transcript
log per (sanitised) session id, keyed by file name. -/
structure PersistState where
  sessionsLog : List SessionRecord
  transcriptLogs : String → List TranscriptEvent

/-! ## State registry (config.ts, `createInstanceRegistry`) -/

/-- The in-memory registry maps. -/
structure RegistryState where
  instances : List (String × Instance)
  sessions : List (String × Session)
  transcripts : String → List TranscriptEvent
  seenSourceIds : String → List String

/-- Registry + persistence + the generators for timestamps
(`new Date()`) and event ids (`nanoid()`). -/
structure SystemState where
  reg : RegistryState
  per : PersistState
  clock : Nat
  nextEventId : Nat

/-- `MAX_EVENTS_PER_SESSION = 10000` (config.ts line 49). -/
def MAX_EVENTS_PER_SESSION : Nat := 10000

/-- The body of the `while (events.length > MAX_EVENTS_PER_SESSION)
events.shift()` eviction loop of `addTranscriptEvent`, with an explicit
iteration budget: each iteration shifts one element, so the list's
length always bounds the number of iterations the loop performs. -/
def evictLoopFuel : Nat → List TranscriptEvent → List TranscriptEvent
  | 0, l => l
  | fuel + 1, l =>
    if MAX_EVENTS_PER_SESSION < l.length then evictLoopFuel fuel l.tail else l

/-- The eviction loop of `addTranscriptEvent`. -/
def evictLoop (l : List TranscriptEvent) : List TranscriptEvent :=
  evictLoopFuel l.length l

/-- Kinds of session-listener notifications (`'start' | 'update' | 'end'`). -/
inductive SessNotifKind where
  | start
  | update
  | end_
  deriving DecidableEq, Repr

/-- Kinds of instance-listener notifications (`'update' | 'disconnect'`). -/
inductive InstNotifKind where
  | update
  | disconnect
  deriving DecidableEq, Repr

/-- `registerInstance`: stamp `startedAt`/`lastSeenAt`, `Map.set`,
notify instance listeners (not persisted — instances are ephemeral). -/
def registerInstance (st : SystemState) (d : InstanceInit) :
    SystemState × Instance × List (InstNotifKind × Instance) :=
  let inst : Instance :=
    { instanceId := d.instanceId, app := d.app, workspaceName := d.workspaceName,
      pid := d.pid, startedAt := st.clock, lastSeenAt := st.clock }
  ({ st with reg := { st.reg with instances := setA st.reg.instances d.instanceId inst } },
   inst, [(InstNotifKind.update, inst)])

/-- `updateHeartbeat`: refresh `lastSeenAt` and notify, if the instance
is known; silently do nothing otherwise. -/
def updateHeartbeat (st : SystemState) (instanceId : String) :
    SystemState × List (InstNotifKind × Instance) :=
  match lookupA st.reg.instances instanceId with
  | none => (st, [])
  | some inst =>
    let inst' := { inst with lastSeenAt := st.clock }
    ({ st with reg := { st.reg with
        instances := modifyA st.reg.instances instanceId (fun i => { i with lastSeenAt := st.clock }) } },
     [(InstNotifKind.update, inst')])

/-- The session sweep inside `removeInstance`: walk the session map in
order; every session owned by the instance and currently `active` is
flipped to `idle` in place, producing one `'end'` notification and one
persisted end record (identified by the session's own `sessionId`).
Returns (new session map, session ids to persist ends for, notified
sessions), each in traversal order. -/
def sweepSessions (instanceId : String) :
    List (String × Session) → List (String × Session) × List String × List Session
  | [] => ([], [], [])
  | (k, s) :: rest =>
    let r := sweepSessions instanceId rest
    if s.instanceId = instanceId ∧ s.status = SessionStatus.active then
      let s' := { s with status := SessionStatus.idle }
      ((k, s') :: r.1, s.sessionId :: r.2.1, s' :: r.2.2)
    else
      ((k, s) :: r.1, r.2.1, r.2.2)

/-- `removeInstance`: if the instance is known, drop it from memory,
idle out its active sessions (notifying and persisting one end record
each), then notify instance listeners of the disconnect.  No removal
record is ever persisted for the instance itself. -/
def removeInstance (st : SystemState) (instanceId : String) :
    SystemState × List (SessNotifKind × Session) × List (InstNotifKind × Instance) :=
  match lookupA st.reg.instances instanceId with
  | none => (st, [], [])
  | some inst =>
    let r := sweepSessions instanceId st.reg.sessions
    ({ st with
        reg := { st.reg with instances := eraseA st.reg.instances instanceId, sessions := r.1 },
        per := { st.per with
          sessionsLog := st.per.sessionsLog ++ r.2.1.map (fun sid => SessionRecord.end_ sid st.clock) } },
     r.2.2.map (fun s => (SessNotifKind.end_, s)),
     [(InstNotifKind.disconnect, inst)])

/-- The `updates` object persisted by the reactivation branch of
`startSession`: `{ status: 'active', instanceId }`. -/
def reactivationUpdates (instanceId : String) : SessionUpdate :=
  { instanceId := some instanceId, title := none, createdAt := none,
    status := some SessionStatus.active, model := none }

/-- `startSession`: an already-known session id is reactivated in place
(status → active, instance reassigned) and persisted as an update
record; an unknown id creates a fresh session stamped with the current
timestamp, resets its in-memory transcript list, notifies and persists
a start record. -/
def startSession (st : SystemState) (instanceId : String) (d : SessionInit) :
    SystemState × Session × List (SessNotifKind × Session) :=
  match lookupA st.reg.sessions d.sessionId with
  | some existing =>
    let s' := { existing with status := SessionStatus.active, instanceId := instanceId }
    ({ st with
        reg := { st.reg with
          sessions := modifyA st.reg.sessions d.sessionId
            (fun s => { s with status := SessionStatus.active, instanceId := instanceId }) },
        per := { st.per with
          sessionsLog := st.per.sessionsLog ++
            [SessionRecord.update d.sessionId (reactivationUpdates instanceId) st.clock] } },
     s', [(SessNotifKind.update, s')])
  | none =>
    let s : Session :=
      { sessionId := d.sessionId, instanceId := instanceId, title := d.title,
        createdAt := st.clock, status := d.status, model := d.model }
    ({ st with
        reg := { st.reg with
          sessions := setA st.reg.sessions d.sessionId s,
          transcripts := updF st.reg.transcripts d.sessionId [] },
        per := { st.per with sessionsLog := st.per.sessionsLog ++ [SessionRecord.start s st.clock] } },
     s, [(SessNotifKind.start, s)])

/-- `updateSession`: merge the partial update into a known session,
notify and persist; return `none` untouched for an unknown id. -/
def updateSession (st : SystemState) (sessionId : String) (u : SessionUpdate) :
    SystemState × Option Session × List (SessNotifKind × Session) :=
  match lookupA st.reg.sessions sessionId with
  | none => (st, none, [])
  | some s =>
    let s' := applyUpdate s u
    ({ st with
        reg := { st.reg with sessions := modifyA st.reg.sessions sessionId (fun t => applyUpdate t u) },
        per := { st.per with sessionsLog := st.per.sessionsLog ++ [SessionRecord.update sessionId u st.clock] } },
     some s', [(SessNotifKind.update, s')])

/-- `endSession`: flip a known session to idle, notify and persist an
end record; do nothing for an unknown id. -/
def endSession (st : SystemState) (sessionId : String) :
    SystemState × List (SessNotifKind × Session) :=
  match lookupA st.reg.sessions sessionId with
  | none => (st, [])
  | some s =>
    let s' := { s with status := SessionStatus.idle }
    ({ st with
        reg := { st.reg with
          sessions := modifyA st.reg.sessions sessionId (fun t => { t with status := SessionStatus.idle }) },
        per := { st.per with sessionsLog := st.per.sessionsLog ++ [SessionRecord.end_ sessionId st.clock] } },
     [(SessNotifKind.end_, s')])

/-- `addTranscriptEvent`: a submission whose `sourceId` is already in
the session's seen set returns `null` and touches nothing.  Otherwise
the event gets a fresh id and timestamp, is pushed onto the in-memory
list, its source id is recorded, the list is trimmed by FIFO eviction
to the retention bound, the event is appended to the session's durable
log (never truncated), and listeners are notified with the event. -/
def addTranscriptEvent (st : SystemState) (d : EventInit) :
    SystemState × Option TranscriptEvent × List TranscriptEvent :=
  let dup : Bool :=
    match d.sourceId with
    | some x => (st.reg.seenSourceIds d.sessionId).contains x
    | none => false
  if dup then (st, none, [])
  else
    let event : TranscriptEvent :=
      { eventId := st.nextEventId, sessionId := d.sessionId, ts := st.clock,
        ty := d.ty, payload := d.payload, sourceId := d.sourceId }
    let pushed := st.reg.transcripts d.sessionId ++ [event]
    let seen' :=
      match d.sourceId with
      | some x => updF st.reg.seenSourceIds d.sessionId (addToSet (st.reg.seenSourceIds d.sessionId) x)
      | none => st.reg.seenSourceIds
    ({ reg := { st.reg with
          transcripts := updF st.reg.transcripts d.sessionId (evictLoop pushed),
          seenSourceIds := seen' },
        per := { st.per with
          transcriptLogs := updF st.per.transcriptLogs (sanitizeId d.sessionId)
            (st.per.transcriptLogs (sanitizeId d.sessionId) ++ [event]) },
        clock := st.clock,
        nextEventId := st.nextEventId + 1 },
     some event, [event])

/-- `Array.prototype.findIndex`, as an `Option`-valued index
(`none` models the `-1` result). -/
def findIndexA (p : TranscriptEvent → Bool) : List TranscriptEvent → Option Nat
  | [] => none
  | e :: rest => if p e then some 0 else (findIndexA p rest).map (· + 1)

/-- `getTranscriptEvents(sessionId, afterEventId?)`: without a cursor,
the whole retained list; with a cursor that occurs, the slice strictly
after its first occurrence; with a cursor that does not occur
(`findIndex` = -1), the whole retained list. -/
def getTranscriptEvents (st : SystemState) (sessionId : String)
    (afterEventId : Option Nat) : List TranscriptEvent :=
  let events := st.reg.transcripts sessionId
  match afterEventId with
  | none => events
  | some a =>
    match findIndexA (fun e => e.eventId = a) events with
    | none => events
    | some idx => events.drop (idx + 1)

/-! ## Executions -/

/-- One registry mutation arriving at the daemon. -/
inductive Op where
  | register (d : InstanceInit)
  | heartbeat (instanceId : String)
  | removeInst (instanceId : String)
  | sessionStart (instanceId : String) (d : SessionInit)
  | sessionUpdate (sessionId : String) (u : SessionUpdate)
  | sessionEnd (sessionId : String)
  | transcriptEvent (d : EventInit)
  deriving DecidableEq, Repr

/-- Apply one operation; the wall clock advances between operations. -/
def applyOp (st : SystemState) (op : Op) : SystemState :=
  let st' :=
    match op with
    | Op.register d => (registerInstance st d).1
    | Op.heartbeat i => (updateHeartbeat st i).1
    | Op.removeInst i => (removeInstance st i).1
    | Op.sessionStart i d => (startSession st i d).1
    | Op.sessionUpdate sid u => (updateSession st sid u).1
    | Op.sessionEnd sid => (endSession st sid).1
    | Op.transcriptEvent d => (addTranscriptEvent st d).1
  { st' with clock := st'.clock + 1 }

/-- Run a sequence of operations. -/
def run (st : SystemState) (ops : List Op) : SystemState :=
  ops.foldl applyOp st

/-- The state of a freshly started daemon with empty logs. -/
def initState : SystemState :=
  { reg := { instances := [], sessions := [], transcripts := fun _ => [],
             seenSourceIds := fun _ => [] },
    per := { sessionsLog := [], transcriptLogs := fun _ => [] },
    clock := 0, nextEventId := 0 }

/-! ## Replay (persistence.ts `loadSessions` / `loadAllTranscriptEvents`,
config.ts startup block) -/

/-- One step of `loadSessions`' replay switch: start creates (set),
update merges into an existing session, end forces status to idle. -/
def applyRecord (m : List (String × Session)) : SessionRecord → List (String × Session)
  | SessionRecord.start s _ => setA m s.sessionId s
  | SessionRecord.update sid u _ => modifyA m sid (fun s => applyUpdate s u)
  | SessionRecord.end_ sid _ => modifyA m sid (fun s => { s with status := SessionStatus.idle })

/-- `loadSessions`: fold the lifecycle log in file order over an empty map. -/
def loadSessions (log : List SessionRecord) : List (String × Session) :=
  log.foldl applyRecord []

/-- The startup rebuild of one session's seen-source-id set from its
replayed events. -/
def collectSourceIds (events : List TranscriptEvent) : List String :=
  events.foldl
    (fun acc e => match e.sourceId with | some x => addToSet acc x | none => acc) []

/-- The daemon state right after a restart over the given disk state:
sessions replayed from the lifecycle log; transcripts loaded per file
(keyed by file name); the deduplication index rebuilt from the loaded
events; instances empty (they are ephemeral). -/
def restartState (p : PersistState) : SystemState :=
  { reg := { instances := [],
             sessions := loadSessions p.sessionsLog,
             transcripts := p.transcriptLogs,
             seenSourceIds := fun sid => collectSourceIds (p.transcriptLogs sid) },
    per := p, clock := 0, nextEventId := 0 }

/-! ## Traces and derived runs used by the claims -/

/-- Session ids an operation touches. -/
def opSessionIds : Op → List String
  | Op.sessionStart _ d => [d.sessionId]
  | Op.sessionUpdate sid _ => [sid]
  | Op.sessionEnd sid => [sid]
  | Op.transcriptEvent d => [d.sessionId]
  | _ => []

/-- All session ids touched by a trace. -/
def traceSessionIds (ops : List Op) : List String :=
  ops.foldr (fun op acc => opSessionIds op ++ acc) []

/-- Every transcript event in the trace targets a session already
started (within the trace or in `started`). -/
def eventsAfterStart (started : List String) : List Op → Bool
  | [] => true
  | Op.sessionStart _ d :: rest => eventsAfterStart (d.sessionId :: started) rest
  | Op.transcriptEvent d :: rest =>
      started.contains d.sessionId && eventsAfterStart started rest
  | _ :: rest => eventsAfterStart started rest

/-- Submit a sequence of transcript events with the given source ids to
one session. -/
def addMany (st : SystemState) (sid : String) (ty : TEType) (payload : String)
    (srcs : List String) : SystemState :=
  run st (srcs.map (fun x => Op.transcriptEvent ⟨sid, ty, payload, some x⟩))

/-- The events such a sequence of accepted submissions creates, given
the first fresh event id and the clock at the first submission. -/
def mkEvents (sid : String) (ty : TEType) (payload : String) :
    List String → Nat → Nat → List TranscriptEvent
  | [], _, _ => []
  | x :: rest, eid, ts =>
    ⟨eid, sid, ts, ty, payload, some x⟩ :: mkEvents sid ty payload rest (eid + 1) (ts + 1)

/-- A family of pairwise distinct source-id strings. -/
def mkSrc (n : Nat) : String :=
  String.mk (List.replicate n 'a')

/-- The last `MAX_EVENTS_PER_SESSION` elements of a list. -/
def dropToMax (l : List TranscriptEvent) : List TranscriptEvent :=
  l.drop (l.length - MAX_EVENTS_PER_SESSION)

/-! ## Connection hub (websocket.ts) -/

/-- The consumer-initiated messages the claims are about
(`WSClientMessage`; the subscription bookkeeping messages do not touch
pending-request or reply state and are elided). -/
inductive ClientMsg where
  | ping
  | sendMessage (sessionId : String) (body : String)
  | createChat (requestId : String) (instanceId : String) (prompt : String)
  deriving DecidableEq, Repr

/-- Hub-to-consumer messages relevant to those actions
(`WSServerMessage`). -/
inductive ServerMsg where
  | pong
  | sendMessageResult (sessionId : String) (success : Bool) (error : Option String)
  | createChatResult (requestId : String) (success : Bool) (error : Option String)
  deriving DecidableEq, Repr

/-- Hub-to-producer commands (`DaemonToExtensionMessage`). -/
inductive ExtCommand where
  | createChatRequest (requestId : String) (prompt : String)
  deriving DecidableEq, Repr

/-- An outgoing transmission of `handleClientMessage`: either a message
on the requesting consumer's own socket or a forward to a producer. -/
inductive HubOut where
  | toClient (msg : ServerMsg)
  | toExtension (instanceId : String) (cmd : ExtCommand)
  deriving DecidableEq, Repr

/-- A `PendingCreateChatRequest` record (websocket.ts). -/
structure PendingCreateChat where
  clientWs : Nat
  instanceId : String
  requestId : String
  timestamp : Nat
  deriving DecidableEq, Repr

/-- The hub state owned by `createWebSocketManager` that the pending
request claims are about: `pendingCreateChatRequests`. -/
structure HubState where
  pendingCreateChat : List (String × PendingCreateChat)
  deriving DecidableEq, Repr

/-- The fixed error text of the disabled send-message action. -/
def SEND_MESSAGE_DISABLED : String :=
  "Send-message to an existing session is temporarily disabled. Use New Chat instead."

/-- The pending-request timeout bound (30 seconds, in milliseconds). -/
def REQUEST_TIMEOUT_MS : Nat := 30000

/-- `handleClientMessage` for the modelled actions.  `connectedExts` is
the set of instance ids remembered by currently connected producer
sockets; `forwardOk` tells whether `targetExtension.ws.send` succeeds
(its failure is caught, deleting the fresh record and replying). -/
def handleClientMessage (st : HubState) (connectedExts : List String) (clientWs : Nat)
    (now : Nat) (forwardOk : Bool) : ClientMsg → HubState × List HubOut
  | ClientMsg.ping => (st, [HubOut.toClient ServerMsg.pong])
  | ClientMsg.sendMessage sid _ =>
      (st, [HubOut.toClient (ServerMsg.sendMessageResult sid false (some SEND_MESSAGE_DISABLED))])
  | ClientMsg.createChat rid iid prompt =>
      if connectedExts.contains iid then
        let st' : HubState := ⟨setA st.pendingCreateChat rid ⟨clientWs, iid, rid, now⟩⟩
        if forwardOk then
          (st', [HubOut.toExtension iid (ExtCommand.createChatRequest rid prompt)])
        else
          (⟨eraseA st'.pendingCreateChat rid⟩,
           [HubOut.toClient (ServerMsg.createChatResult rid false
              (some "Failed to forward to extension"))])
      else
        (st, [HubOut.toClient (ServerMsg.createChatResult rid false
           (some "Extension not connected for this instance"))])

/-- The `create_chat_result` branch of `handleExtensionMessage`: a reply
whose request id has a pending record deletes it and forwards one reply
to the originating consumer; a reply with no pending record is dropped. -/
def handleCreateChatResult (st : HubState) (requestId : String) (success : Bool)
    (error : Option String) : HubState × List (Nat × ServerMsg) :=
  match lookupA st.pendingCreateChat requestId with
  | some pending =>
      (⟨eraseA st.pendingCreateChat requestId⟩,
       [(pending.clientWs, ServerMsg.createChatResult requestId success error)])
  | none => (st, [])

/-- Whether a pending record has exceeded the timeout at sweep time
(`now - request.timestamp > 30000`). -/
def expiredAt (now : Nat) (p : String × PendingCreateChat) : Bool :=
  decide (REQUEST_TIMEOUT_MS < now - p.2.timestamp)

/-- The periodic cleanup sweep over `pendingCreateChatRequests`: every
record older than the bound is deleted and answered with one synthetic
failure reply to its originating consumer. -/
def sweepCreateChat (st : HubState) (now : Nat) : HubState × List (Nat × ServerMsg) :=
  (⟨st.pendingCreateChat.filter (fun p => !expiredAt now p)⟩,
   (st.pendingCreateChat.filter (expiredAt now)).map
     (fun p => (p.2.clientWs, ServerMsg.createChatResult p.1 false (some "Request timed out"))))

/-- One externally triggered hub transition. -/
inductive HubEvent where
  | clientMsg (connectedExts : List String) (clientWs : Nat) (now : Nat)
      (forwardOk : Bool) (m : ClientMsg)
  | extCreateChatResult (requestId : String) (success : Bool) (error : Option String)
  | sweep (now : Nat)
  deriving DecidableEq, Repr

/-- The consumer-directed transmissions among a client handler's outputs
(the handler sends them on the requesting client's own socket). -/
def clientRepliesOf (clientWs : Nat) (outs : List HubOut) : List (Nat × ServerMsg) :=
  outs.foldr
    (fun o acc =>
      match o with
      | HubOut.toClient m => (clientWs, m) :: acc
      | HubOut.toExtension _ _ => acc) []

/-- One hub step with the consumer-directed transmissions it performs. -/
def hubStep (st : HubState) : HubEvent → HubState × List (Nat × ServerMsg)
  | HubEvent.clientMsg exts c now fwd m =>
      let r := handleClientMessage st exts c now fwd m
      (r.1, clientRepliesOf c r.2)
  | HubEvent.extCreateChatResult rid ok err => handleCreateChatResult st rid ok err
  | HubEvent.sweep now => sweepCreateChat st now

/-- Run a sequence of hub events, collecting all consumer-directed
transmissions in order. -/
def hubRun (st : HubState) : List HubEvent → HubState × List (Nat × ServerMsg)
  | [] => (st, [])
  | e :: rest =>
      let r := hubStep st e
      let r' := hubRun r.1 rest
      (r'.1, r.2 ++ r'.2)

/-- Hub state at daemon start. -/
def hubInit : HubState := ⟨[]⟩

/-- Whether a transmission is a `create_chat_result` for this request id. -/
def isCreateChatReply (rid : String) : Nat × ServerMsg → Bool
  | (_, ServerMsg.createChatResult rid' _ _) => decide (rid' = rid)
  | _ => false

/-- Number of `create_chat_result` transmissions for a request id. -/
def countReplies (rid : String) (l : List (Nat × ServerMsg)) : Nat :=
  (l.filter (isCreateChatReply rid)).length

/-- Whether an event is a consumer `create_chat` for this request id. -/
def isCreateFor (rid : String) : HubEvent → Bool
  | HubEvent.clientMsg _ _ _ _ (ClientMsg.createChat rid' _ _) => decide (rid' = rid)
  | _ => false

/-- Number of consumer `create_chat` requests with this request id. -/
def countCreates (rid : String) (events : List HubEvent) : Nat :=
  (events.filter (isCreateFor rid)).length

/-- Number of entries stored under a key in an association list. -/
def countKey {α : Type} (rid : String) (m : List (String × α)) : Nat :=
  (m.filter (fun p => decide (p.1 = rid))).length

/-! ## Listener fan-out with a throwing listener (config.ts
`sessionListeners.forEach` inside `removeInstance`) -/

/-- `Set.forEach` over the registered listeners, starting at index
`idx`; a listener whose behaviour is `true` throws: it is invoked, the
exception propagates, and no later listener runs.  Returns the indices
invoked and whether an exception escaped. -/
def runListenersFrom (idx : Nat) : List Bool → List Nat × Bool
  | [] => ([], false)
  | throws :: rest =>
    if throws then ([idx], true)
    else
      let r := runListenersFrom (idx + 1) rest
      (idx :: r.1, r.2)

/-- Observable outcome of `removeInstance`'s session loop when listener
exceptions are modelled: resulting session map, persisted end records,
listener invocations as (listener index, notified session id), and
whether an exception escaped the whole loop. -/
structure RemoveTrace where
  sessions : List (String × Session)
  persistedEnds : List String
  invocations : List (Nat × String)
  aborted : Bool
  deriving DecidableEq, Repr

/-- The session loop of `removeInstance` with throwing listeners: per
matching session the code mutates `session.status` to idle, then runs
`sessionListeners.forEach`, then persists the end record.  An exception
from a listener therefore escapes after the in-place status mutation but
before that session's persist, and aborts the remaining iterations. -/
def removeInstanceListeners (behaviors : List Bool) (instanceId : String) :
    List (String × Session) → RemoveTrace
  | [] => ⟨[], [], [], false⟩
  | (k, s) :: rest =>
    if s.instanceId = instanceId ∧ s.status = SessionStatus.active then
      let s' := { s with status := SessionStatus.idle }
      let inv := runListenersFrom 0 behaviors
      if inv.2 then
        ⟨(k, s') :: rest, [], inv.1.map (fun i => (i, s.sessionId)), true⟩
      else
        let r := removeInstanceListeners behaviors instanceId rest
        ⟨(k, s') :: r.sessions, s.sessionId :: r.persistedEnds,
         inv.1.map (fun i => (i, s.sessionId)) ++ r.invocations, r.aborted⟩
    else
      let r := removeInstanceListeners behaviors instanceId rest
      ⟨(k, s) :: r.sessions, r.persistedEnds, r.invocations, r.aborted⟩

/-! ## Broadcast fan-out with a failing socket (websocket.ts
`broadcastToInstanceSubscribers` / `broadcastToSessionSubscribers`) -/

/-- One consumer connection as the broadcast loops see it; `sendOk`
models whether `client.ws.send` succeeds for this connection. -/
structure ClientConn where
  authenticated : Bool
  subscribedInstances : Bool
  subscribedSessions : List String
  sendOk : Bool
  deriving DecidableEq, Repr

/-- The broadcast `for` loop: eligible clients are sent the message in
order; the loop body has no try/catch, so a throwing send propagates,
delivering to no further client.  Returns the indices of clients that
received the message and whether the loop was aborted. -/
def broadcastLoop (eligible : ClientConn → Bool) (idx : Nat) :
    List ClientConn → List Nat × Bool
  | [] => ([], false)
  | c :: rest =>
    if eligible c then
      if c.sendOk then
        let r := broadcastLoop eligible (idx + 1) rest
        (idx :: r.1, r.2)
      else ([], true)
    else broadcastLoop eligible (idx + 1) rest

/-- `broadcastToInstanceSubscribers`: authenticated clients subscribed
to the global instance stream. -/
def broadcastInstancesRun (clients : List ClientConn) : List Nat × Bool :=
  broadcastLoop (fun c => c.authenticated && c.subscribedInstances) 0 clients

/-- `broadcastToSessionSubscribers`: authenticated clients subscribed to
this session id. -/
def broadcastSessionRun (sessionId : String) (clients : List ClientConn) : List Nat × Bool :=
  broadcastLoop (fun c => c.authenticated && c.subscribedSessions.contains sessionId) 0 clients

/-! ## Concrete inputs used to exercise the theorems -/

/-- A transcript submission with a source id. -/
def eventC1 : EventInit := ⟨"s1", TEType.message, "p", some "m1"⟩

/-- 10,001 pairwise distinct source ids. -/
def srcsC2 : List String := (List.range 10001).map mkSrc

/-- Whether a session entry is owned by the instance and active (the
condition of `removeInstance`'s transition). -/
def ownedActive (i : String) (p : String × Session) : Bool :=
  decide (p.2.instanceId = i ∧ p.2.status = SessionStatus.active)

/-- A connected producer instance. -/
def instC5 : Instance := ⟨"i1", "app", "w", 1, 0, 0⟩

/-- Two active sessions and one idle session, all owned by `instC5`. -/
def sessActiveA : Session := ⟨"s1", "i1", "t1", 0, SessionStatus.active, none⟩

def sessActiveB : Session := ⟨"s2", "i1", "t2", 0, SessionStatus.active, none⟩

def sessIdleC : Session := ⟨"s3", "i1", "t3", 0, SessionStatus.idle, none⟩

/-- A registry state with one instance owning two active sessions and
one already-idle session. -/
def stC5 : SystemState :=
  { reg := { instances := [("i1", instC5)],
             sessions := [("s1", sessActiveA), ("s2", sessActiveB), ("s3", sessIdleC)],
             transcripts := fun _ => [], seenSourceIds := fun _ => [] },
    per := { sessionsLog := [], transcriptLogs := fun _ => [] },
    clock := 5, nextEventId := 0 }

/-- One create-chat request answered once, then two late replies and a
late sweep for the same request id. -/
def eventsC6 : List HubEvent :=
  [HubEvent.clientMsg ["i1"] 7 0 true (ClientMsg.createChat "r1" "i1" "hello"),
   HubEvent.extCreateChatResult "r1" true none,
   HubEvent.extCreateChatResult "r1" true none,
   HubEvent.sweep 100000]

/-- An eligible subscriber whose socket send succeeds. -/
def clientOk : ClientConn := ⟨true, true, ["sA"], true⟩

/-- An eligible subscriber whose socket send throws. -/
def clientBad : ClientConn := ⟨true, true, ["sA"], false⟩

/-- The correspondence between a running state and its durable logs
that the replay claims rest on: the session map replays from the
lifecycle log; session keys are unique and name their record's id; the
retained transcript window is the tail of the per-session durable log;
the seen-source-id set holds exactly the source ids occurring in the
log; sessions never started have no log. -/
def ReplayInv (st : SystemState) : Prop :=
  loadSessions st.per.sessionsLog = st.reg.sessions ∧
  (keysA st.reg.sessions).Nodup ∧
  (∀ sid, st.reg.transcripts sid = dropToMax (st.per.transcriptLogs sid)) ∧
  (∀ sid x, x ∈ st.reg.seenSourceIds sid
     ↔ ∃ e ∈ st.per.transcriptLogs sid, e.sourceId = some x) ∧
  (∀ sid, lookupA st.reg.sessions sid = none → st.per.transcriptLogs sid = []) ∧
  (∀ p ∈ st.reg.sessions, p.2.sessionId = p.1)

/-- An execution whose session id contains a character the transcript
file name sanitisation replaces: "a.b" is stored on disk as "a_b". -/
def cexOps : List Op :=
  [Op.register ⟨"i1", "app", "w", 1⟩,
   Op.sessionStart "i1" ⟨"a.b", "i1", "t", SessionStatus.active, none⟩,
   Op.transcriptEvent ⟨"a.b", TEType.message, "p", none⟩]

/-- An execution with a filesystem-safe session id, one deduplicated
transcript event, and a session end. -/
def opsC3 : List Op :=
  [Op.register ⟨"i1", "app", "w", 1⟩,
   Op.sessionStart "i1" ⟨"s1", "i1", "t", SessionStatus.active, none⟩,
   Op.transcriptEvent ⟨"s1", TEType.message, "p", some "m1"⟩,
   Op.sessionEnd "s1"]

/-! # Theorems -/

/-! ## Association-list and set helper lemmas -/

theorem mem_addToSet (l : List String) (x y : String) :
    y ∈ addToSet l x ↔ y ∈ l ∨ y = x := by
  unfold addToSet
  by_cases hc : l.contains x = true
  · have hx : x ∈ l := by simpa using hc
    simp only [hc, if_true]
    constructor
    · exact Or.inl
    · rintro (h | rfl)
      · exact h
      · exact hx
  · simp only [hc, if_false]
    simp

theorem mem_addToSet_self (l : List String) (x : String) : x ∈ addToSet l x :=
  (mem_addToSet l x x).2 (Or.inr rfl)

theorem lookupA_eq_none_iff {α : Type} (m : List (String × α)) (k : String) :
    lookupA m k = none ↔ k ∉ keysA m := by
  induction m with
  | nil => simp [lookupA, keysA]
  | cons p rest ih =>
    obtain ⟨k', v⟩ := p
    by_cases h : k' = k
    · subst h
      simp [lookupA, keysA]
    · have h' : k ≠ k' := fun hh => h hh.symm
      simp [lookupA, keysA, h, h', ih]

theorem setA_eq_append_of_not_mem {α : Type} (m : List (String × α)) (k : String) (v : α)
    (h : k ∉ keysA m) : setA m k v = m ++ [(k, v)] := by
  induction m with
  | nil => simp [setA]
  | cons p rest ih =>
    obtain ⟨k', v'⟩ := p
    simp only [keysA, List.map_cons, List.mem_cons] at h
    push_neg at h
    have hk : k' ≠ k := fun hh => h.1 hh.symm
    simp [setA, hk, ih (by simpa [keysA] using h.2)]

theorem keysA_setA_of_mem {α : Type} (m : List (String × α)) (k : String) (v : α)
    (h : k ∈ keysA m) : keysA (setA m k v) = keysA m := by
  induction m with
  | nil => simp [keysA] at h
  | cons p rest ih =>
    obtain ⟨k', v'⟩ := p
    by_cases hk : k' = k
    · simp [setA, hk, keysA]
    · have hmem : k ∈ keysA rest := by
        simp only [keysA, List.map_cons, List.mem_cons] at h
        rcases h with h | h
        · exact absurd h.symm hk
        · simpa [keysA] using h
      have ih' := ih hmem
      simp only [keysA] at ih' ⊢
      simp [setA, hk, ih']

theorem lookupA_setA_self {α : Type} (m : List (String × α)) (k : String) (v : α) :
    lookupA (setA m k v) k = some v := by
  induction m with
  | nil => simp [setA, lookupA]
  | cons p rest ih =>
    obtain ⟨k', v'⟩ := p
    by_cases hk : k' = k <;> simp [setA, hk, lookupA, ih]

theorem lookupA_setA_ne {α : Type} (m : List (String × α)) (k q : String) (v : α)
    (h : q ≠ k) : lookupA (setA m k v) q = lookupA m q := by
  induction m with
  | nil => simp [setA, lookupA, Ne.symm h]
  | cons p rest ih =>
    obtain ⟨k', v'⟩ := p
    by_cases hk : k' = k
    · subst hk
      simp [setA, lookupA, Ne.symm h]
    · simp only [setA, hk, if_false]
      by_cases hq : k' = q <;> simp [lookupA, hq, ih]

theorem keysA_modifyA {α : Type} (m : List (String × α)) (k : String) (f : α → α) :
    keysA (modifyA m k f) = keysA m := by
  induction m with
  | nil => simp [modifyA]
  | cons p rest ih =>
    obtain ⟨k', v⟩ := p
    simp only [keysA] at ih ⊢
    by_cases hk : k' = k <;> simp [modifyA, hk, ih]

theorem lookupA_modifyA_self {α : Type} (m : List (String × α)) (k : String) (f : α → α) :
    lookupA (modifyA m k f) k = (lookupA m k).map f := by
  induction m with
  | nil => simp [modifyA, lookupA]
  | cons p rest ih =>
    obtain ⟨k', v⟩ := p
    by_cases hk : k' = k <;> simp [modifyA, hk, lookupA, ih]

theorem lookupA_modifyA_ne {α : Type} (m : List (String × α)) (k q : String) (f : α → α)
    (h : q ≠ k) : lookupA (modifyA m k f) q = lookupA m q := by
  induction m with
  | nil => simp [modifyA]
  | cons p rest ih =>
    obtain ⟨k', v⟩ := p
    by_cases hk : k' = k
    · subst hk
      simp [modifyA, lookupA, Ne.symm h]
    · simp only [modifyA, hk, if_false]
      by_cases hq : k' = q <;> simp [lookupA, hq, ih]

theorem modifyA_congr {α : Type} (m : List (String × α)) (k : String) (f g : α → α)
    (h : ∀ a, f a = g a) : modifyA m k f = modifyA m k g := by
  induction m with
  | nil => simp [modifyA]
  | cons p rest ih =>
    obtain ⟨k', v⟩ := p
    by_cases hk : k' = k <;> simp [modifyA, hk, h, ih]

theorem eraseA_sublist {α : Type} (m : List (String × α)) (k : String) :
    (eraseA m k).Sublist m := by
  induction m with
  | nil => simp [eraseA]
  | cons p rest ih =>
    obtain ⟨k', v⟩ := p
    by_cases hk : k' = k
    · simp only [eraseA, if_pos hk]
      exact List.sublist_cons_self _ _
    · simp only [eraseA, if_neg hk]
      exact ih.cons₂ (k', v)

theorem nodup_keysA_setA {α : Type} (m : List (String × α)) (k : String) (v : α)
    (h : (keysA m).Nodup) : (keysA (setA m k v)).Nodup := by
  by_cases hm : k ∈ keysA m
  · rw [keysA_setA_of_mem m k v hm]
    exact h
  · rw [setA_eq_append_of_not_mem m k v hm]
    simp only [keysA, List.map_append, List.map_cons, List.map_nil] at *
    rw [List.nodup_append]
    refine ⟨h, List.nodup_singleton _, ?_⟩
    intro a ha hb
    simp only [List.mem_singleton] at hb
    subst hb
    exact hm ha

/-! ## Eviction-loop characterisation -/

theorem evictLoopFuel_eq_dropToMax :
    ∀ (n : Nat) (l : List TranscriptEvent), l.length ≤ n → evictLoopFuel n l = dropToMax l := by
  intro n
  induction n with
  | zero =>
    intro l hl
    have hnil : l = [] := List.eq_nil_of_length_eq_zero (Nat.le_zero.mp hl)
    subst hnil
    simp [evictLoopFuel, dropToMax]
  | succ n ih =>
    intro l hl
    rw [evictLoopFuel]
    by_cases h : MAX_EVENTS_PER_SESSION < l.length
    · rw [if_pos h, ih l.tail (by simp only [List.length_tail]; omega)]
      unfold dropToMax
      have h1 : l.tail = l.drop 1 := (List.drop_one l).symm
      rw [h1, List.drop_drop]
      have harith : 1 + ((l.drop 1).length - MAX_EVENTS_PER_SESSION)
          = l.length - MAX_EVENTS_PER_SESSION := by
        simp only [List.length_drop]
        omega
      rw [harith]
    · rw [if_neg h]
      unfold dropToMax
      have hz : l.length - MAX_EVENTS_PER_SESSION = 0 := by omega
      rw [hz]
      rfl

theorem evictLoop_eq_dropToMax (l : List TranscriptEvent) : evictLoop l = dropToMax l :=
  evictLoopFuel_eq_dropToMax l.length l (Nat.le_refl _)

theorem dropToMax_of_le (l : List TranscriptEvent) (h : l.length ≤ MAX_EVENTS_PER_SESSION) :
    dropToMax l = l := by
  unfold dropToMax
  have hz : l.length - MAX_EVENTS_PER_SESSION = 0 := by omega
  simp [hz]

theorem length_dropToMax (l : List TranscriptEvent) :
    (dropToMax l).length = min l.length MAX_EVENTS_PER_SESSION := by
  simp only [dropToMax, List.length_drop]
  omega

/-- Pushing one event onto the retained window and evicting matches
taking the last `MAX_EVENTS_PER_SESSION` of the grown log. -/
theorem dropToMax_push (log : List TranscriptEvent) (e : TranscriptEvent) :
    evictLoop (dropToMax log ++ [e]) = dropToMax (log ++ [e]) := by
  rw [evictLoop_eq_dropToMax]
  have hM : MAX_EVENTS_PER_SESSION = 10000 := rfl
  unfold dropToMax
  rw [List.drop_append_of_le_length
        (by simp only [List.length_append, List.length_drop, List.length_singleton]; omega)]
  rw [List.drop_append_of_le_length
        (by simp only [List.length_append, List.length_singleton]; omega)]
  rw [List.drop_drop]
  have harith :
      log.length - MAX_EVENTS_PER_SESSION +
        ((List.drop (log.length - MAX_EVENTS_PER_SESSION) log ++ [e]).length -
          MAX_EVENTS_PER_SESSION)
      = (log ++ [e]).length - MAX_EVENTS_PER_SESSION := by
    simp only [List.length_append, List.length_drop, List.length_singleton]
    omega
  rw [harith]

/-! ## findIndex and cursor helper lemmas -/

theorem findIndexA_eq_none (p : TranscriptEvent → Bool) (l : List TranscriptEvent)
    (h : ∀ e ∈ l, p e = false) : findIndexA p l = none := by
  induction l with
  | nil => rfl
  | cons e rest ih =>
    simp only [findIndexA, h e (List.mem_cons_self e rest), if_false, Bool.false_eq_true]
    rw [ih (fun x hx => h x (List.mem_cons_of_mem e hx))]
    rfl

theorem findIndexA_append_cons (p : TranscriptEvent → Bool) (l₁ : List TranscriptEvent)
    (e : TranscriptEvent) (l₂ : List TranscriptEvent) (hp : p e = true)
    (h1 : ∀ x ∈ l₁, p x = false) :
    findIndexA p (l₁ ++ e :: l₂) = some l₁.length := by
  induction l₁ with
  | nil => simp [findIndexA, hp]
  | cons a rest ih =>
    simp only [List.cons_append, findIndexA, h1 a (List.mem_cons_self a rest), if_false,
      Bool.false_eq_true, List.append_eq]
    rw [ih (fun x hx => h1 x (List.mem_cons_of_mem a hx))]
    simp

theorem drop_succ_len_append {α : Type} (l₁ : List α) (e : α) (l₂ : List α) :
    (l₁ ++ e :: l₂).drop (l₁.length + 1) = l₂ := by
  induction l₁ with
  | nil => simp
  | cons a rest ih => simp [ih]

/-! ## C1: duplicate source id is a silent, idempotent no-op -/

theorem addTranscriptEvent_of_dup (st : SystemState) (d : EventInit) (x : String)
    (hx : d.sourceId = some x) (hm : x ∈ st.reg.seenSourceIds d.sessionId) :
    addTranscriptEvent st d = (st, none, []) := by
  unfold addTranscriptEvent
  rw [hx]
  have hc : (st.reg.seenSourceIds d.sessionId).contains x = true := by simpa using hm
  simp [hc, hm]

theorem addTranscriptEvent_records_sourceId (st : SystemState) (d : EventInit) (x : String)
    (hx : d.sourceId = some x) :
    x ∈ (addTranscriptEvent st d).1.reg.seenSourceIds d.sessionId := by
  by_cases hm : x ∈ st.reg.seenSourceIds d.sessionId
  · rw [addTranscriptEvent_of_dup st d x hx hm]
    exact hm
  · unfold addTranscriptEvent
    rw [hx]
    have hc : (st.reg.seenSourceIds d.sessionId).contains x = false := by
      simp only [Bool.eq_false_iff]
      simpa using hm
    simp only [hc, Bool.false_eq_true, if_false, updF]
    simp [mem_addToSet]

/-- C1: a transcript submission whose source identifier is already
recorded for the session is rejected with `null` as a complete no-op:
the whole system state (durable log, in-memory list, dedup set) is
unchanged and no listener is notified; consequently submitting the same
source id twice is idempotent — the second submission returns no event
and the stored transcript length is unchanged. -/
theorem duplicate_sourceId_silent_noop (st : SystemState) (d : EventInit) (x : String)
    (hx : d.sourceId = some x) :
    (x ∈ st.reg.seenSourceIds d.sessionId → addTranscriptEvent st d = (st, none, [])) ∧
    (addTranscriptEvent (addTranscriptEvent st d).1 d).2.1 = none ∧
    ((addTranscriptEvent (addTranscriptEvent st d).1 d).1.reg.transcripts d.sessionId).length
      = ((addTranscriptEvent st d).1.reg.transcripts d.sessionId).length := by
  refine ⟨addTranscriptEvent_of_dup st d x hx, ?_, ?_⟩
  · rw [addTranscriptEvent_of_dup (addTranscriptEvent st d).1 d x hx
      (addTranscriptEvent_records_sourceId st d x hx)]
  · rw [addTranscriptEvent_of_dup (addTranscriptEvent st d).1 d x hx
      (addTranscriptEvent_records_sourceId st d x hx)]

/-- C1 witness: the concrete duplicate submission of `eventC1`. -/
theorem duplicate_sourceId_silent_noop_witness :
    eventC1.sourceId = some "m1" ∧
    ((("m1" : String) ∈ initState.reg.seenSourceIds eventC1.sessionId →
        addTranscriptEvent initState eventC1 = (initState, none, [])) ∧
     (addTranscriptEvent (addTranscriptEvent initState eventC1).1 eventC1).2.1 = none ∧
     ((addTranscriptEvent (addTranscriptEvent initState eventC1).1 eventC1).1.reg.transcripts
        eventC1.sessionId).length
       = ((addTranscriptEvent initState eventC1).1.reg.transcripts eventC1.sessionId).length) :=
  ⟨rfl, duplicate_sourceId_silent_noop initState eventC1 "m1" rfl⟩

/-! ## C10: cursor pagination -/

/-- C10: `getTranscriptEvents` without a cursor returns the whole
retained list; with a cursor whose event id occurs first at some
position it returns exactly the events strictly after that position in
stored order; with a cursor that does not occur in the retained list
(unknown, or already evicted) it returns the entire retained list. -/
theorem getTranscriptEvents_cursor (st : SystemState) (sid : String) (a : Nat) :
    (getTranscriptEvents st sid none = st.reg.transcripts sid) ∧
    ((∀ e ∈ st.reg.transcripts sid, e.eventId ≠ a) →
       getTranscriptEvents st sid (some a) = st.reg.transcripts sid) ∧
    (∀ l₁ e l₂, st.reg.transcripts sid = l₁ ++ e :: l₂ → e.eventId = a →
       (∀ x ∈ l₁, x.eventId ≠ a) → getTranscriptEvents st sid (some a) = l₂) := by
  refine ⟨rfl, ?_, ?_⟩
  · intro h
    have hfi : findIndexA (fun e => decide (e.eventId = a)) (st.reg.transcripts sid) = none :=
      findIndexA_eq_none _ _ (fun e he => by simp [h e he])
    simp [getTranscriptEvents, hfi]
  · intro l₁ e l₂ hsplit he h₁
    have hfi : findIndexA (fun x => decide (x.eventId = a)) (l₁ ++ e :: l₂) = some l₁.length :=
      findIndexA_append_cons _ _ _ _ (by simp [he]) (fun x hx => by simp [h₁ x hx])
    simp [getTranscriptEvents, hsplit, hfi, drop_succ_len_append l₁ e l₂]

/-! ## C9: the send-message action is always rejected -/

/-- C9: for every consumer `send_message` request, in every hub state
and regardless of which producer instances are connected, the hub
replies to that consumer with the single fixed failure result, forwards
nothing to any producer, and creates no pending request. -/
theorem sendMessage_always_disabled (st : HubState) (connectedExts : List String)
    (clientWs now : Nat) (forwardOk : Bool) (sid body : String) :
    handleClientMessage st connectedExts clientWs now forwardOk (ClientMsg.sendMessage sid body)
      = (st, [HubOut.toClient (ServerMsg.sendMessageResult sid false (some SEND_MESSAGE_DISABLED))])
    ∧ (handleClientMessage st connectedExts clientWs now forwardOk
        (ClientMsg.sendMessage sid body)).1.pendingCreateChat = st.pendingCreateChat
    ∧ ∀ i c, HubOut.toExtension i c ∉
        (handleClientMessage st connectedExts clientWs now forwardOk
          (ClientMsg.sendMessage sid body)).2 := by
  refine ⟨rfl, rfl, ?_⟩
  intro i c
  simp [handleClientMessage]

/-! ## C2: bounded retention with a full durable log -/

theorem updF_self {α : Type} (f : String → α) (k : String) (v : α) : updF f k v k = v := by
  simp [updF]

theorem updF_ne {α : Type} (f : String → α) (k : String) (v : α) (q : String) (h : q ≠ k) :
    updF f k v q = f q := by
  simp [updF, h]

theorem addToSet_of_not_mem (l : List String) (x : String) (h : x ∉ l) :
    addToSet l x = l ++ [x] := by
  have hc : l.contains x = false := by
    simp only [Bool.eq_false_iff]
    simpa using h
  simp [addToSet, hc, h]

theorem length_mkEvents (sid : String) (ty : TEType) (payload : String) :
    ∀ (srcs : List String) (eid ts : Nat),
      (mkEvents sid ty payload srcs eid ts).length = srcs.length := by
  intro srcs
  induction srcs with
  | nil => intro eid ts; rfl
  | cons x rest ih => intro eid ts; simp [mkEvents, ih]

/-- Effect of one accepted transcript submission on the session's log,
window and seen set. -/
theorem transcriptEvent_step (st : SystemState) (sid : String) (ty : TEType)
    (payload : String) (x : String) (hx : x ∉ st.reg.seenSourceIds sid) :
    (applyOp st (Op.transcriptEvent ⟨sid, ty, payload, some x⟩)).per.transcriptLogs (sanitizeId sid)
        = st.per.transcriptLogs (sanitizeId sid)
          ++ [⟨st.nextEventId, sid, st.clock, ty, payload, some x⟩] ∧
    (applyOp st (Op.transcriptEvent ⟨sid, ty, payload, some x⟩)).reg.transcripts sid
        = evictLoop (st.reg.transcripts sid
            ++ [⟨st.nextEventId, sid, st.clock, ty, payload, some x⟩]) ∧
    (applyOp st (Op.transcriptEvent ⟨sid, ty, payload, some x⟩)).reg.seenSourceIds sid
        = st.reg.seenSourceIds sid ++ [x] ∧
    (applyOp st (Op.transcriptEvent ⟨sid, ty, payload, some x⟩)).nextEventId
        = st.nextEventId + 1 ∧
    (applyOp st (Op.transcriptEvent ⟨sid, ty, payload, some x⟩)).clock = st.clock + 1 := by
  have hc : (st.reg.seenSourceIds sid).contains x = false := by
    simp only [Bool.eq_false_iff]
    simpa using hx
  simp only [applyOp, addTranscriptEvent, hc, Bool.false_eq_true, if_false, updF_self,
    addToSet_of_not_mem _ _ hx]
  refine ⟨?_, ?_, ?_, ?_, ?_⟩ <;> trivial

/-- Submitting any sequence of fresh, pairwise distinct source ids:
the per-session durable log grows by exactly one record per submission
(never truncated) while the in-memory window is the last
`MAX_EVENTS_PER_SESSION` of that log. -/
theorem addMany_spec (sid : String) (ty : TEType) (payload : String) :
    ∀ (srcs : List String) (st : SystemState),
    srcs.Nodup → (∀ x ∈ srcs, x ∉ st.reg.seenSourceIds sid) →
    st.reg.transcripts sid = dropToMax (st.per.transcriptLogs (sanitizeId sid)) →
    (addMany st sid ty payload srcs).per.transcriptLogs (sanitizeId sid)
        = st.per.transcriptLogs (sanitizeId sid)
          ++ mkEvents sid ty payload srcs st.nextEventId st.clock ∧
    (addMany st sid ty payload srcs).reg.transcripts sid
        = dropToMax ((addMany st sid ty payload srcs).per.transcriptLogs (sanitizeId sid)) ∧
    (addMany st sid ty payload srcs).reg.seenSourceIds sid
        = st.reg.seenSourceIds sid ++ srcs := by
  intro srcs
  induction srcs with
  | nil =>
    intro st _ _ hinv
    refine ⟨by simp [addMany, run, mkEvents], by simpa [addMany, run] using hinv,
      by simp [addMany, run]⟩
  | cons x rest ih =>
    intro st hnd hfresh hinv
    have hx : x ∉ st.reg.seenSourceIds sid := hfresh x (List.mem_cons_self x rest)
    obtain ⟨hlog1, hmem1, hseen1, hnid1, hclock1⟩ := transcriptEvent_step st sid ty payload x hx
    have hstep : addMany st sid ty payload (x :: rest)
        = addMany (applyOp st (Op.transcriptEvent ⟨sid, ty, payload, some x⟩)) sid ty payload rest := by
      simp [addMany, run]
    set st1 := applyOp st (Op.transcriptEvent ⟨sid, ty, payload, some x⟩) with hst1
    have hfresh1 : ∀ y ∈ rest, y ∉ st1.reg.seenSourceIds sid := by
      intro y hy
      rw [hseen1]
      simp only [List.mem_append, List.mem_singleton]
      rintro (h | rfl)
      · exact hfresh y (List.mem_cons_of_mem x hy) h
      · exact (List.nodup_cons.mp hnd).1 hy
    have hinv1 : st1.reg.transcripts sid = dropToMax (st1.per.transcriptLogs (sanitizeId sid)) := by
      rw [hmem1, hlog1, hinv]
      exact dropToMax_push _ _
    obtain ⟨hlog2, hmem2, hseen2⟩ := ih st1 (List.nodup_cons.mp hnd).2 hfresh1 hinv1
    rw [hstep]
    refine ⟨?_, hmem2, ?_⟩
    · rw [hlog2, hlog1, hnid1, hclock1]
      simp [mkEvents]
    · rw [hseen2, hseen1]
      simp

/-- C2: submitting 10,001 transcript events with pairwise distinct
source ids to one session leaves exactly the last 10,000 accepted
events in memory (the oldest evicted FIFO from the head) while the
per-session durable log contains all 10,001; eviction removes nothing
from the durable log. -/
theorem bounded_retention_10001 (sid : String) (ty : TEType) (payload : String)
    (srcs : List String) (hnd : srcs.Nodup) (hlen : srcs.length = 10001) :
    (addMany initState sid ty payload srcs).per.transcriptLogs (sanitizeId sid)
      = mkEvents sid ty payload srcs 0 0 ∧
    ((addMany initState sid ty payload srcs).per.transcriptLogs (sanitizeId sid)).length
      = 10001 ∧
    (addMany initState sid ty payload srcs).reg.transcripts sid
      = (mkEvents sid ty payload srcs 0 0).drop 1 ∧
    ((addMany initState sid ty payload srcs).reg.transcripts sid).length = 10000 := by
  obtain ⟨hlog, hmem, _⟩ := addMany_spec sid ty payload srcs initState hnd
    (by intro x _; simp [initState]) (by simp [initState, dropToMax])
  have hlog' : (addMany initState sid ty payload srcs).per.transcriptLogs (sanitizeId sid)
      = mkEvents sid ty payload srcs 0 0 := by
    rw [hlog]
    simp [initState]
  have hlen' : ((addMany initState sid ty payload srcs).per.transcriptLogs (sanitizeId sid)).length
      = 10001 := by
    rw [hlog', length_mkEvents, hlen]
  have hM : MAX_EVENTS_PER_SESSION = 10000 := rfl
  refine ⟨hlog', hlen', ?_, ?_⟩
  · rw [hmem, hlog']
    unfold dropToMax
    rw [length_mkEvents, hlen]
    have h1 : 10001 - MAX_EVENTS_PER_SESSION = 1 := by omega
    rw [h1]
  · rw [hmem]
    simp only [dropToMax, List.length_drop, hlen']
    omega

theorem mkSrc_injective : Function.Injective mkSrc := by
  intro a b h
  have h1 : (List.replicate a 'a').length = (List.replicate b 'a').length := by
    have h0 := congrArg String.data h
    simpa [mkSrc] using congrArg List.length h0
  simpa using h1

/-- C2 witness: 10,001 concrete distinct source ids. -/
theorem bounded_retention_10001_witness :
    srcsC2.Nodup ∧ srcsC2.length = 10001 ∧
    ((addMany initState "s1" TEType.message "p" srcsC2).per.transcriptLogs (sanitizeId "s1")
       = mkEvents "s1" TEType.message "p" srcsC2 0 0 ∧
     ((addMany initState "s1" TEType.message "p" srcsC2).per.transcriptLogs
        (sanitizeId "s1")).length = 10001 ∧
     (addMany initState "s1" TEType.message "p" srcsC2).reg.transcripts "s1"
       = (mkEvents "s1" TEType.message "p" srcsC2 0 0).drop 1 ∧
     ((addMany initState "s1" TEType.message "p" srcsC2).reg.transcripts "s1").length
       = 10000) :=
  ⟨(List.nodup_range 10001).map mkSrc_injective, by simp [srcsC2],
   bounded_retention_10001 "s1" TEType.message "p" srcsC2
     ((List.nodup_range 10001).map mkSrc_injective) (by simp [srcsC2])⟩

/-! ## C4: session identifiers are unique; reactivation semantics -/

theorem keysA_sweepSessions (i : String) (m : List (String × Session)) :
    keysA (sweepSessions i m).1 = keysA m := by
  induction m with
  | nil => rfl
  | cons p rest ih =>
    obtain ⟨k, s⟩ := p
    by_cases h : s.instanceId = i ∧ s.status = SessionStatus.active <;>
      simp [sweepSessions, h, keysA, ih] <;>
      simpa [keysA] using ih

theorem nodup_sessions_applyOp (st : SystemState) (op : Op)
    (h : (keysA st.reg.sessions).Nodup) :
    (keysA (applyOp st op).reg.sessions).Nodup := by
  cases op with
  | register d => simpa [applyOp, registerInstance] using h
  | heartbeat i =>
    unfold applyOp updateHeartbeat
    cases hl : lookupA st.reg.instances i <;> simp [hl, h]
  | removeInst i =>
    unfold applyOp removeInstance
    cases hl : lookupA st.reg.instances i <;> simp [hl, h, keysA_sweepSessions]
  | sessionStart i d =>
    unfold applyOp startSession
    cases hl : lookupA st.reg.sessions d.sessionId
    · simp [hl, nodup_keysA_setA _ _ _ h]
    · simp [hl, keysA_modifyA, h]
  | sessionUpdate sid u =>
    unfold applyOp updateSession
    cases hl : lookupA st.reg.sessions sid <;> simp [hl, keysA_modifyA, h]
  | sessionEnd sid =>
    unfold applyOp endSession
    cases hl : lookupA st.reg.sessions sid <;> simp [hl, keysA_modifyA, h]
  | transcriptEvent d =>
    simp only [applyOp]
    unfold addTranscriptEvent
    cases hsrc : d.sourceId with
    | none => simp [h]
    | some x =>
      by_cases hm : x ∈ st.reg.seenSourceIds d.sessionId <;> simp [hm, h]

theorem nodup_sessions_run (ops : List Op) :
    ∀ st : SystemState, (keysA st.reg.sessions).Nodup →
      (keysA (run st ops).reg.sessions).Nodup := by
  induction ops with
  | nil => intro st h; exact h
  | cons op rest ih =>
    intro st h
    exact ih (applyOp st op) (nodup_sessions_applyOp st op h)

/-- C4: in every reachable registry state there is at most one session
record per identifier; `startSession` on a known id mutates that record
in place (status back to active, instance reassigned) without adding a
record, and on an unknown id appends one fresh session stamped with the
current timestamp. -/
theorem session_identifier_unique :
    (∀ ops : List Op, (keysA (run initState ops).reg.sessions).Nodup) ∧
    (∀ (st : SystemState) (i : String) (d : SessionInit) (s : Session),
       lookupA st.reg.sessions d.sessionId = some s →
       keysA (startSession st i d).1.reg.sessions = keysA st.reg.sessions ∧
       lookupA (startSession st i d).1.reg.sessions d.sessionId
         = some { s with status := SessionStatus.active, instanceId := i } ∧
       (startSession st i d).2.1
         = { s with status := SessionStatus.active, instanceId := i } ∧
       ∀ q, q ≠ d.sessionId →
         lookupA (startSession st i d).1.reg.sessions q = lookupA st.reg.sessions q) ∧
    (∀ (st : SystemState) (i : String) (d : SessionInit),
       lookupA st.reg.sessions d.sessionId = none →
       lookupA (startSession st i d).1.reg.sessions d.sessionId
         = some { sessionId := d.sessionId, instanceId := i, title := d.title,
                  createdAt := st.clock, status := d.status, model := d.model } ∧
       keysA (startSession st i d).1.reg.sessions = keysA st.reg.sessions ++ [d.sessionId]) := by
  refine ⟨?_, ?_, ?_⟩
  · intro ops
    exact nodup_sessions_run ops initState (by simp [initState, keysA])
  · intro st i d s hs
    unfold startSession
    simp only [hs]
    refine ⟨keysA_modifyA _ _ _, ?_, by trivial, ?_⟩
    · rw [lookupA_modifyA_self, hs]
      rfl
    · intro q hq
      exact lookupA_modifyA_ne _ _ _ _ hq
  · intro st i d hs
    unfold startSession
    simp only [hs]
    constructor
    · exact lookupA_setA_self _ _ _
    · rw [setA_eq_append_of_not_mem _ _ _ ((lookupA_eq_none_iff _ _).mp hs)]
      simp [keysA]

/-! ## C5: removeInstance idles exactly the active sessions of the
instance -/

theorem sweepSessions_fst (i : String) (m : List (String × Session)) :
    (sweepSessions i m).1
      = m.map (fun p =>
          if ownedActive i p then (p.1, { p.2 with status := SessionStatus.idle }) else p) := by
  induction m with
  | nil => rfl
  | cons p rest ih =>
    obtain ⟨k, s⟩ := p
    by_cases h : s.instanceId = i ∧ s.status = SessionStatus.active <;>
      simp [sweepSessions, h, ownedActive, ih]

theorem sweepSessions_ends (i : String) (m : List (String × Session)) :
    (sweepSessions i m).2.1 = (m.filter (ownedActive i)).map (fun p => p.2.sessionId) := by
  induction m with
  | nil => rfl
  | cons p rest ih =>
    obtain ⟨k, s⟩ := p
    by_cases h : s.instanceId = i ∧ s.status = SessionStatus.active <;>
      simp [sweepSessions, h, ownedActive, ih]

theorem sweepSessions_notifs (i : String) (m : List (String × Session)) :
    (sweepSessions i m).2.2
      = (m.filter (ownedActive i)).map (fun p => { p.2 with status := SessionStatus.idle }) := by
  induction m with
  | nil => rfl
  | cons p rest ih =>
    obtain ⟨k, s⟩ := p
    by_cases h : s.instanceId = i ∧ s.status = SessionStatus.active <;>
      simp [sweepSessions, h, ownedActive, ih]

theorem lookupA_eraseA_self {α : Type} (m : List (String × α)) (k : String)
    (h : (keysA m).Nodup) : lookupA (eraseA m k) k = none := by
  induction m with
  | nil => rfl
  | cons p rest ih =>
    obtain ⟨k', v⟩ := p
    simp only [keysA, List.map_cons, List.nodup_cons] at h
    by_cases hk : k' = k
    · subst hk
      simp only [eraseA, if_pos rfl]
      exact (lookupA_eq_none_iff rest k').mpr (by simpa [keysA] using h.1)
    · simp only [eraseA, if_neg hk, lookupA, hk, if_false]
      exact ih (by simpa [keysA] using h.2)

/-- C5: `removeInstance` on a known instance transitions exactly the
active sessions owned by it to idle, emitting one end notification and
persisting one end record per transitioned session (in traversal
order); already-idle sessions are untouched and unnotified; the
instance record is dropped from memory with no persisted removal
record (only session end records are appended) and one disconnect
notification. -/
theorem removeInstance_behavior (st : SystemState) (i : String) (inst : Instance)
    (hinst : lookupA st.reg.instances i = some inst)
    (hnd : (keysA st.reg.instances).Nodup) :
    (removeInstance st i).2.1
      = (st.reg.sessions.filter (ownedActive i)).map
          (fun p => (SessNotifKind.end_, { p.2 with status := SessionStatus.idle })) ∧
    (removeInstance st i).1.reg.sessions
      = st.reg.sessions.map
          (fun p =>
            if ownedActive i p then (p.1, { p.2 with status := SessionStatus.idle }) else p) ∧
    (removeInstance st i).1.per.sessionsLog
      = st.per.sessionsLog
        ++ (st.reg.sessions.filter (ownedActive i)).map
             (fun p => SessionRecord.end_ p.2.sessionId st.clock) ∧
    lookupA (removeInstance st i).1.reg.instances i = none ∧
    (removeInstance st i).1.per.transcriptLogs = st.per.transcriptLogs ∧
    (removeInstance st i).1.reg.transcripts = st.reg.transcripts ∧
    (removeInstance st i).2.2 = [(InstNotifKind.disconnect, inst)] := by
  unfold removeInstance
  simp only [hinst]
  refine ⟨?_, ?_, ?_, ?_, by trivial, by trivial, by trivial⟩
  · rw [sweepSessions_notifs, List.map_map]
    rfl
  · exact sweepSessions_fst i _
  · rw [sweepSessions_ends, List.map_map]
    rfl
  · exact lookupA_eraseA_self _ _ hnd

/-- C5 witness: removing an instance with two active sessions and one
already-idle session. -/
theorem removeInstance_behavior_witness :
    lookupA stC5.reg.instances "i1" = some instC5 ∧
    (keysA stC5.reg.instances).Nodup ∧
    ((removeInstance stC5 "i1").2.1
       = (stC5.reg.sessions.filter (ownedActive "i1")).map
           (fun p => (SessNotifKind.end_, { p.2 with status := SessionStatus.idle })) ∧
     (removeInstance stC5 "i1").1.reg.sessions
       = stC5.reg.sessions.map
           (fun p =>
             if ownedActive "i1" p then (p.1, { p.2 with status := SessionStatus.idle }) else p) ∧
     (removeInstance stC5 "i1").1.per.sessionsLog
       = stC5.per.sessionsLog
         ++ (stC5.reg.sessions.filter (ownedActive "i1")).map
              (fun p => SessionRecord.end_ p.2.sessionId stC5.clock) ∧
     lookupA (removeInstance stC5 "i1").1.reg.instances "i1" = none ∧
     (removeInstance stC5 "i1").1.per.transcriptLogs = stC5.per.transcriptLogs ∧
     (removeInstance stC5 "i1").1.reg.transcripts = stC5.reg.transcripts ∧
     (removeInstance stC5 "i1").2.2 = [(InstNotifKind.disconnect, instC5)]) :=
  ⟨rfl, by simp [stC5, keysA],
   removeInstance_behavior stC5 "i1" instC5 rfl (by simp [stC5, keysA])⟩

/-! ## C6: at most one reply per pending create-chat request -/

theorem countKey_nil {α : Type} (rid : String) : countKey rid ([] : List (String × α)) = 0 :=
  rfl

theorem countKey_cons {α : Type} (rid k : String) (v : α) (rest : List (String × α)) :
    countKey rid ((k, v) :: rest) = (if k = rid then 1 else 0) + countKey rid rest := by
  by_cases hk : k = rid <;> simp [countKey, List.filter_cons, hk] <;> omega

theorem countKey_setA_le {α : Type} (m : List (String × α)) (k : String) (v : α) (rid : String) :
    countKey rid (setA m k v) ≤ countKey rid m + (if k = rid then 1 else 0) := by
  induction m with
  | nil =>
    have hs : setA ([] : List (String × α)) k v = [(k, v)] := rfl
    rw [hs, countKey_cons, countKey_nil]
    omega
  | cons p rest ih =>
    obtain ⟨k', v'⟩ := p
    by_cases hk : k' = k
    · subst hk
      have hs : setA ((k', v') :: rest) k' v = (k', v) :: rest := by simp [setA]
      rw [hs, countKey_cons, countKey_cons]
      omega
    · have hs : setA ((k', v') :: rest) k v = (k', v') :: setA rest k v := by simp [setA, hk]
      rw [hs, countKey_cons, countKey_cons]
      omega

theorem countKey_eraseA_lookup {α : Type} (m : List (String × α)) (k : String) (v : α)
    (h : lookupA m k = some v) :
    countKey k m = countKey k (eraseA m k) + 1 := by
  induction m with
  | nil => simp [lookupA] at h
  | cons p rest ih =>
    obtain ⟨k', v'⟩ := p
    by_cases hk : k' = k
    · subst hk
      have hs : eraseA ((k', v') :: rest) k' = rest := by simp [eraseA]
      rw [hs, countKey_cons]
      have h1 : (if k' = k' then 1 else 0) = 1 := if_pos rfl
      rw [h1]
      omega
    · simp only [lookupA, if_neg hk] at h
      have hs : eraseA ((k', v') :: rest) k = (k', v') :: eraseA rest k := by simp [eraseA, hk]
      rw [hs, countKey_cons, countKey_cons, ih h]
      omega

theorem countKey_setA_ne {α : Type} (m : List (String × α)) (k : String) (v : α) (rid : String)
    (h : k ≠ rid) : countKey rid (setA m k v) = countKey rid m := by
  induction m with
  | nil => simp [setA, countKey_cons, countKey, h]
  | cons p rest ih =>
    obtain ⟨k', v'⟩ := p
    by_cases hk : k' = k
    · subst hk
      have hs : setA ((k', v') :: rest) k' v = (k', v) :: rest := by simp [setA]
      rw [hs, countKey_cons, countKey_cons]
    · have hs : setA ((k', v') :: rest) k v = (k', v') :: setA rest k v := by simp [setA, hk]
      rw [hs, countKey_cons, countKey_cons, ih]

theorem countKey_eraseA_le {α : Type} (m : List (String × α)) (k rid : String) :
    countKey rid (eraseA m k) ≤ countKey rid m :=
  List.Sublist.length_le ((eraseA_sublist m k).filter _)

theorem length_filter_and_partition {α : Type} (l : List α) (r e : α → Bool) :
    (l.filter (fun a => r a && e a)).length + (l.filter (fun a => r a && !e a)).length
      = (l.filter r).length := by
  induction l with
  | nil => rfl
  | cons x rest ih =>
    cases hr : r x <;> cases he : e x <;> simp [List.filter_cons, hr, he, ih] <;> omega

theorem countKey_filter_partition {α : Type} (m : List (String × α)) (rid : String)
    (e : String × α → Bool) :
    countKey rid (m.filter e) + countKey rid (m.filter (fun a => !e a)) = countKey rid m := by
  unfold countKey
  rw [List.filter_filter, List.filter_filter]
  exact length_filter_and_partition m _ e

theorem countReplies_map (rid : String) (l : List (String × PendingCreateChat))
    (err : Option String) :
    countReplies rid (l.map (fun p => (p.2.clientWs, ServerMsg.createChatResult p.1 false err)))
      = countKey rid l := by
  unfold countReplies countKey
  rw [List.filter_map, List.length_map]
  rfl

theorem countReplies_nil (rid : String) : countReplies rid [] = 0 := rfl

theorem countReplies_single_create (rid rid' : String) (c : Nat) (ok : Bool)
    (err : Option String) :
    countReplies rid [(c, ServerMsg.createChatResult rid' ok err)]
      = if rid' = rid then 1 else 0 := by
  by_cases hr : rid' = rid <;> simp [countReplies, List.filter_cons, isCreateChatReply, hr]

theorem countReplies_single_pong (rid : String) (c : Nat) :
    countReplies rid [(c, ServerMsg.pong)] = 0 := rfl

theorem countReplies_single_sendres (rid : String) (c : Nat) (sid : String) (ok : Bool)
    (err : Option String) :
    countReplies rid [(c, ServerMsg.sendMessageResult sid ok err)] = 0 := rfl

theorem hubStep_reply_bound (st : HubState) (e : HubEvent) (rid : String) :
    countReplies rid (hubStep st e).2 + countKey rid (hubStep st e).1.pendingCreateChat
      ≤ (if isCreateFor rid e then 1 else 0) + countKey rid st.pendingCreateChat := by
  cases e with
  | clientMsg exts c now fwd m =>
    cases m with
    | ping =>
      simp only [hubStep, handleClientMessage, clientRepliesOf, List.foldr,
        countReplies_single_pong]
      simp [isCreateFor]
    | sendMessage sid body =>
      simp only [hubStep, handleClientMessage, clientRepliesOf, List.foldr,
        countReplies_single_sendres]
      simp [isCreateFor]
    | createChat rid' iid prompt =>
      have hind : (if isCreateFor rid (HubEvent.clientMsg exts c now fwd
          (ClientMsg.createChat rid' iid prompt)) then 1 else 0)
          = if rid' = rid then 1 else 0 := by
        by_cases hr : rid' = rid <;> simp [isCreateFor, hr]
      rw [hind]
      by_cases hconn : exts.contains iid = true
      · by_cases hfwd : fwd = true
        · simp only [hubStep, handleClientMessage, hconn, if_true, hfwd, clientRepliesOf,
            List.foldr, countReplies_nil]
          have hle := countKey_setA_le st.pendingCreateChat rid' ⟨c, iid, rid', now⟩ rid
          omega
        · simp only [hubStep, handleClientMessage, hconn, if_true, hfwd, Bool.false_eq_true,
            if_false, clientRepliesOf, List.foldr, countReplies_single_create]
          by_cases hr : rid' = rid
          · subst hr
            have h1 := countKey_eraseA_lookup
              (setA st.pendingCreateChat rid' ⟨c, iid, rid', now⟩) rid' ⟨c, iid, rid', now⟩
              (lookupA_setA_self _ _ _)
            have h2 := countKey_setA_le st.pendingCreateChat rid' ⟨c, iid, rid', now⟩ rid'
            have h3 : (if rid' = rid' then 1 else 0) = 1 := if_pos rfl
            rw [h3] at h2 ⊢
            omega
          · have h1 := countKey_eraseA_le (setA st.pendingCreateChat rid' ⟨c, iid, rid', now⟩)
              rid' rid
            rw [countKey_setA_ne _ _ _ _ hr] at h1
            have h3 : (if rid' = rid then 1 else 0) = 0 := if_neg hr
            rw [h3]
            omega
      · simp only [hubStep, handleClientMessage, hconn, Bool.false_eq_true, if_false,
          clientRepliesOf, List.foldr, countReplies_single_create]
        omega
  | extCreateChatResult rid' ok err =>
    have hind : (if isCreateFor rid (HubEvent.extCreateChatResult rid' ok err) then 1 else 0)
        = 0 := rfl
    rw [hind]
    cases hl : lookupA st.pendingCreateChat rid' with
    | none =>
      simp [hubStep, handleCreateChatResult, hl, countReplies_nil]
    | some pending =>
      simp only [hubStep, handleCreateChatResult, hl, countReplies_single_create]
      by_cases hr : rid' = rid
      · subst hr
        have h1 := countKey_eraseA_lookup st.pendingCreateChat rid' pending hl
        have h3 : (if rid' = rid' then 1 else 0) = 1 := if_pos rfl
        rw [h3]
        omega
      · have h1 := countKey_eraseA_le st.pendingCreateChat rid' rid
        have h3 : (if rid' = rid then 1 else 0) = 0 := if_neg hr
        rw [h3]
        omega
  | sweep now =>
    have hind : (if isCreateFor rid (HubEvent.sweep now) then 1 else 0) = 0 := rfl
    rw [hind]
    simp only [hubStep, sweepCreateChat]
    rw [countReplies_map]
    have hp := countKey_filter_partition st.pendingCreateChat rid (expiredAt now)
    omega

theorem hubRun_reply_bound (events : List HubEvent) :
    ∀ (st : HubState) (rid : String),
    countReplies rid (hubRun st events).2 + countKey rid (hubRun st events).1.pendingCreateChat
      ≤ countCreates rid events + countKey rid st.pendingCreateChat := by
  induction events with
  | nil => intro st rid; simp [hubRun, countReplies, countCreates]
  | cons e rest ih =>
    intro st rid
    have h1 := hubStep_reply_bound st e rid
    have h2 := ih (hubStep st e).1 rid
    have hsplit : countReplies rid (hubRun st (e :: rest)).2
        = countReplies rid (hubStep st e).2
          + countReplies rid (hubRun (hubStep st e).1 rest).2 := by
      simp [hubRun, countReplies, List.filter_append]
    have hst : (hubRun st (e :: rest)).1 = (hubRun (hubStep st e).1 rest).1 := by
      simp [hubRun]
    have hcc : countCreates rid (e :: rest)
        = (if isCreateFor rid e then 1 else 0) + countCreates rid rest := by
      by_cases hc : isCreateFor rid e = true <;> simp [countCreates, List.filter_cons, hc] <;>
        omega
    rw [hsplit, hst, hcc]
    omega



/-- C6: over any run from daemon start in which a request id is issued
as a create-chat request at most once, at most one create-chat result
for that id is ever transmitted to a consumer — whichever of the
producer reply and the timeout sweep comes first deletes the pending
record and sends the one reply — and a producer reply for a request id
with no pending record is a silent no-op. -/
theorem pending_request_single_reply (events : List HubEvent) (rid : String)
    (h : countCreates rid events ≤ 1) :
    countReplies rid (hubRun hubInit events).2 ≤ 1 ∧
    (∀ (st : HubState) (success : Bool) (err : Option String),
       lookupA st.pendingCreateChat rid = none →
       handleCreateChatResult st rid success err = (st, [])) := by
  constructor
  · have hb := hubRun_reply_bound events hubInit rid
    have h0 : countKey rid hubInit.pendingCreateChat = 0 := rfl
    omega
  · intro st success err hl
    unfold handleCreateChatResult
    rw [hl]

/-- C6 witness: one request, one matching reply, then two late replies
and a late sweep — the run transmits exactly one result. -/
theorem pending_request_single_reply_witness :
    countCreates "r1" eventsC6 ≤ 1 ∧
    (countReplies "r1" (hubRun hubInit eventsC6).2 ≤ 1 ∧
     (∀ (st : HubState) (success : Bool) (err : Option String),
        lookupA st.pendingCreateChat "r1" = none →
        handleCreateChatResult st "r1" success err = (st, []))) :=
  ⟨by decide, pending_request_single_reply eventsC6 "r1" (by decide)⟩

/-! ## C7: a throwing listener (code-bug evaluation) -/

/-- C7 fails on the code: `removeInstance` with two active sessions of
the instance and two registered session listeners of which the first
throws.  The first session is flipped to idle in place and listener 0
is invoked for it, then the exception escapes the un-guarded
`forEach`: listener 1 is never invoked, the first session's end record
is never persisted, and the second session is never transitioned —
contradicting the claim that a throwing listener prevents neither the
remaining listeners nor the integrity of the mutation. -/
theorem throwing_listener_aborts_loop :
    (removeInstanceListeners [true, false] "i1"
        [("s1", sessActiveA), ("s2", sessActiveB)]).aborted = true ∧
    (removeInstanceListeners [true, false] "i1"
        [("s1", sessActiveA), ("s2", sessActiveB)]).sessions
      = [("s1", { sessActiveA with status := SessionStatus.idle }), ("s2", sessActiveB)] ∧
    (removeInstanceListeners [true, false] "i1"
        [("s1", sessActiveA), ("s2", sessActiveB)]).invocations = [(0, "s1")] ∧
    ((1 : Nat), "s1") ∉ (removeInstanceListeners [true, false] "i1"
        [("s1", sessActiveA), ("s2", sessActiveB)]).invocations ∧
    ((0 : Nat), "s2") ∉ (removeInstanceListeners [true, false] "i1"
        [("s1", sessActiveA), ("s2", sessActiveB)]).invocations ∧
    (removeInstanceListeners [true, false] "i1"
        [("s1", sessActiveA), ("s2", sessActiveB)]).persistedEnds = [] := by
  decide

/-! ## C8: a failing socket send aborts the broadcast loop (code-bug
evaluation) -/

/-- C8 fails on the code: in both broadcast loops the per-client send
has no try/catch, so with three eligible authenticated subscribers of
which the second one's socket send throws, only the first receives the
message — the third eligible subscriber is skipped, contradicting the
claim that a send failure is caught per-send. -/
theorem broadcast_send_failure_aborts_loop :
    broadcastInstancesRun [clientOk, clientBad, clientOk] = ([0], true) ∧
    (2 : Nat) ∉ (broadcastInstancesRun [clientOk, clientBad, clientOk]).1 ∧
    broadcastSessionRun "sA" [clientOk, clientBad, clientOk] = ([0], true) ∧
    (2 : Nat) ∉ (broadcastSessionRun "sA" [clientOk, clientBad, clientOk]).1 := by
  decide

/-! ## C3: replay reconstruction -/

theorem loadSessions_append_one (log : List SessionRecord) (r : SessionRecord) :
    loadSessions (log ++ [r]) = applyRecord (loadSessions log) r := by
  simp [loadSessions, List.foldl_append]

theorem applyUpdate_reactivation (s : Session) (i : String) :
    applyUpdate s (reactivationUpdates i)
      = { s with status := SessionStatus.active, instanceId := i } := rfl

theorem applyUpdate_sessionId (s : Session) (u : SessionUpdate) :
    (applyUpdate s u).sessionId = s.sessionId := rfl

theorem keyInv_modifyA (m : List (String × Session)) (k : String) (f : Session → Session)
    (hf : ∀ s, (f s).sessionId = s.sessionId)
    (h : ∀ p ∈ m, p.2.sessionId = p.1) :
    ∀ p ∈ modifyA m k f, p.2.sessionId = p.1 := by
  induction m with
  | nil => simp [modifyA]
  | cons q rest ih =>
    obtain ⟨k', v⟩ := q
    intro p hp
    by_cases hk : k' = k
    · simp only [modifyA, if_pos hk, List.mem_cons] at hp
      rcases hp with rfl | hp
      · rw [hf]
        exact h (k', v) (List.mem_cons_self _ _)
      · exact h p (List.mem_cons_of_mem _ hp)
    · simp only [modifyA, if_neg hk, List.mem_cons] at hp
      rcases hp with rfl | hp
      · exact h (k', v) (List.mem_cons_self _ _)
      · exact ih (fun q hq => h q (List.mem_cons_of_mem _ hq)) p hp

theorem keyInv_setA (m : List (String × Session)) (k : String) (v : Session)
    (hv : v.sessionId = k) (h : ∀ p ∈ m, p.2.sessionId = p.1) :
    ∀ p ∈ setA m k v, p.2.sessionId = p.1 := by
  induction m with
  | nil =>
    intro p hp
    simp only [setA, List.mem_singleton] at hp
    subst hp
    exact hv
  | cons q rest ih =>
    obtain ⟨k', v'⟩ := q
    intro p hp
    by_cases hk : k' = k
    · simp only [setA, if_pos hk, List.mem_cons] at hp
      rcases hp with rfl | hp
      · exact hv
      · exact h p (List.mem_cons_of_mem _ hp)
    · simp only [setA, if_neg hk, List.mem_cons] at hp
      rcases hp with rfl | hp
      · exact h (k', v') (List.mem_cons_self _ _)
      · exact ih (fun q hq => h q (List.mem_cons_of_mem _ hq)) p hp

theorem lookupA_isSome_applyOp (st : SystemState) (op : Op) (sid : String)
    (h : lookupA st.reg.sessions sid ≠ none) :
    lookupA (applyOp st op).reg.sessions sid ≠ none := by
  cases op with
  | register d => simpa [applyOp, registerInstance] using h
  | heartbeat i =>
    unfold applyOp updateHeartbeat
    cases hl : lookupA st.reg.instances i <;> simp [hl, h]
  | removeInst i =>
    unfold applyOp removeInstance
    cases hl : lookupA st.reg.instances i
    · simpa [hl] using h
    · simp only [hl]
      intro hnone
      apply h
      rw [lookupA_eq_none_iff] at hnone ⊢
      simpa [keysA_sweepSessions] using hnone
  | sessionStart i d =>
    unfold applyOp startSession
    cases hl : lookupA st.reg.sessions d.sessionId
    · by_cases hq : sid = d.sessionId
      · subst hq
        simp [hl, lookupA_setA_self]
      · simp [hl, lookupA_setA_ne _ _ _ _ hq, h]
    · by_cases hq : sid = d.sessionId
      · subst hq
        simp [hl, lookupA_modifyA_self]
      · simp [hl, lookupA_modifyA_ne _ _ _ _ hq, h]
  | sessionUpdate sid' u =>
    unfold applyOp updateSession
    cases hl : lookupA st.reg.sessions sid'
    · simpa [hl] using h
    · by_cases hq : sid = sid'
      · subst hq
        simp [hl, lookupA_modifyA_self]
      · simp [hl, lookupA_modifyA_ne _ _ _ _ hq, h]
  | sessionEnd sid' =>
    unfold applyOp endSession
    cases hl : lookupA st.reg.sessions sid'
    · simpa [hl] using h
    · by_cases hq : sid = sid'
      · subst hq
        simp [hl, lookupA_modifyA_self]
      · simp [hl, lookupA_modifyA_ne _ _ _ _ hq, h]
  | transcriptEvent d =>
    simp only [applyOp]
    unfold addTranscriptEvent
    cases hsrc : d.sourceId with
    | none => simpa using h
    | some x =>
      by_cases hm : x ∈ st.reg.seenSourceIds d.sessionId <;> simp [hm, h]

theorem startSession_lookup_some (st : SystemState) (i : String) (d : SessionInit) :
    lookupA (applyOp st (Op.sessionStart i d)).reg.sessions d.sessionId ≠ none := by
  unfold applyOp startSession
  cases hl : lookupA st.reg.sessions d.sessionId
  · simp [hl, lookupA_setA_self]
  · simp [hl, lookupA_modifyA_self]

theorem transcriptLogs_applyOp (st : SystemState) (op : Op) (sid : String)
    (h : sid ∉ opSessionIds op)
    (hsafe : ∀ q ∈ opSessionIds op, sanitizeId q = q) :
    (applyOp st op).per.transcriptLogs sid = st.per.transcriptLogs sid := by
  cases op with
  | register d => rfl
  | heartbeat i =>
    unfold applyOp updateHeartbeat
    cases hl : lookupA st.reg.instances i <;> simp [hl]
  | removeInst i =>
    unfold applyOp removeInstance
    cases hl : lookupA st.reg.instances i <;> simp [hl]
  | sessionStart i d =>
    unfold applyOp startSession
    cases hl : lookupA st.reg.sessions d.sessionId <;> simp [hl]
  | sessionUpdate sid' u =>
    unfold applyOp updateSession
    cases hl : lookupA st.reg.sessions sid' <;> simp [hl]
  | sessionEnd sid' =>
    unfold applyOp endSession
    cases hl : lookupA st.reg.sessions sid' <;> simp [hl]
  | transcriptEvent d =>
    have hne : sid ≠ d.sessionId := by
      intro hq
      exact h (by simp [opSessionIds, hq])
    have hkey : sanitizeId d.sessionId = d.sessionId :=
      hsafe d.sessionId (by simp [opSessionIds])
    simp only [applyOp]
    unfold addTranscriptEvent
    cases hsrc : d.sourceId with
    | none =>
      simp [updF, hkey, hne]
    | some x =>
      by_cases hm : x ∈ st.reg.seenSourceIds d.sessionId <;> simp [hm, updF, hkey, hne]

theorem mem_collect_aux (events : List TranscriptEvent) :
    ∀ (acc : List String) (x : String),
    x ∈ events.foldl
        (fun acc e => match e.sourceId with | some y => addToSet acc y | none => acc) acc
      ↔ x ∈ acc ∨ ∃ e ∈ events, e.sourceId = some x := by
  induction events with
  | nil => intro acc x; simp
  | cons e rest ih =>
    intro acc x
    cases hsrc : e.sourceId with
    | none =>
      simp only [List.foldl_cons, hsrc]
      rw [ih]
      constructor
      · rintro (h | h)
        · exact Or.inl h
        · exact Or.inr (by
            obtain ⟨e', he', hx⟩ := h
            exact ⟨e', List.mem_cons_of_mem _ he', hx⟩)
      · rintro (h | ⟨e', he', hx⟩)
        · exact Or.inl h
        · rcases List.mem_cons.mp he' with rfl | he'
          · rw [hsrc] at hx
            cases hx
          · exact Or.inr ⟨e', he', hx⟩
    | some y =>
      simp only [List.foldl_cons, hsrc]
      rw [ih]
      rw [mem_addToSet]
      constructor
      · rintro ((h | rfl) | h)
        · exact Or.inl h
        · exact Or.inr ⟨e, List.mem_cons_self _ _, hsrc⟩
        · obtain ⟨e', he', hx⟩ := h
          exact Or.inr ⟨e', List.mem_cons_of_mem _ he', hx⟩
      · rintro (h | ⟨e', he', hx⟩)
        · exact Or.inl (Or.inl h)
        · rcases List.mem_cons.mp he' with rfl | he'
          · rw [hsrc] at hx
            cases hx
            exact Or.inl (Or.inr rfl)
          · exact Or.inr ⟨e', he', hx⟩

theorem mem_collectSourceIds (events : List TranscriptEvent) (x : String) :
    x ∈ collectSourceIds events ↔ ∃ e ∈ events, e.sourceId = some x := by
  unfold collectSourceIds
  rw [mem_collect_aux]
  simp

theorem loadSessions_append (log recs : List SessionRecord) :
    loadSessions (log ++ recs) = recs.foldl applyRecord (loadSessions log) := by
  simp [loadSessions, List.foldl_append]

theorem applyRecord_cons_ne (k : String) (x : Session) (rest : List (String × Session))
    (r : SessionRecord) (h : recordKey r ≠ k) :
    applyRecord ((k, x) :: rest) r = (k, x) :: applyRecord rest r := by
  cases r with
  | start s ts =>
    have hk : k ≠ s.sessionId := fun hh => h (by simp [recordKey, hh])
    simp [applyRecord, setA, hk]
  | update sid u ts =>
    have hk : k ≠ sid := fun hh => h (by simp [recordKey, hh])
    simp [applyRecord, modifyA, hk]
  | end_ sid ts =>
    have hk : k ≠ sid := fun hh => h (by simp [recordKey, hh])
    simp [applyRecord, modifyA, hk]

theorem foldl_applyRecord_cons (recs : List SessionRecord) :
    ∀ (k : String) (x : Session) (rest : List (String × Session)),
    (∀ r ∈ recs, recordKey r ≠ k) →
    recs.foldl applyRecord ((k, x) :: rest) = (k, x) :: recs.foldl applyRecord rest := by
  induction recs with
  | nil => intro k x rest _; rfl
  | cons r rs ih =>
    intro k x rest h
    rw [List.foldl_cons, applyRecord_cons_ne k x rest r (h r (List.mem_cons_self _ _)),
      List.foldl_cons]
    exact ih k x (applyRecord rest r) (fun q hq => h q (List.mem_cons_of_mem _ hq))

theorem foldl_endRecords (i : String) (ts : Nat) :
    ∀ (m : List (String × Session)), (keysA m).Nodup →
    ((m.filter (ownedActive i)).map (fun p => SessionRecord.end_ p.1 ts)).foldl applyRecord m
      = m.map (fun p =>
          if ownedActive i p then (p.1, { p.2 with status := SessionStatus.idle }) else p) := by
  intro m
  induction m with
  | nil => intro _; rfl
  | cons q rest ih =>
    obtain ⟨k, s⟩ := q
    intro hnd
    simp only [keysA, List.map_cons, List.nodup_cons] at hnd
    have hknotin : k ∉ keysA rest := by simpa [keysA] using hnd.1
    have hrest : (keysA rest).Nodup := by simpa [keysA] using hnd.2
    have hrecs : ∀ r ∈ (rest.filter (ownedActive i)).map
        (fun p => SessionRecord.end_ p.1 ts), recordKey r ≠ k := by
      intro r hr
      obtain ⟨p, hp, rfl⟩ := List.mem_map.mp hr
      have hpk : p.1 ∈ keysA rest :=
        List.mem_map_of_mem Prod.fst (List.mem_of_mem_filter hp)
      intro hh
      rw [recordKey] at hh
      exact hknotin (hh ▸ hpk)
    cases hc : ownedActive i (k, s) with
    | true =>
      simp only [List.filter_cons, hc, if_true, List.map_cons, List.foldl_cons]
      have hstep : applyRecord ((k, s) :: rest) (SessionRecord.end_ k ts)
          = (k, { s with status := SessionStatus.idle }) :: rest := by
        simp [applyRecord, modifyA]
      rw [hstep, foldl_applyRecord_cons _ _ _ _ hrecs, ih hrest]
    | false =>
      simp only [List.filter_cons, hc, Bool.false_eq_true, if_false, List.map_cons]
      rw [foldl_applyRecord_cons _ _ _ _ hrecs, ih hrest]

theorem replayInv_applyOp (st : SystemState) (op : Op)
    (hInv : ReplayInv st)
    (hsafe : ∀ sid ∈ opSessionIds op, sanitizeId sid = sid)
    (hstart : ∀ d, op = Op.transcriptEvent d → lookupA st.reg.sessions d.sessionId ≠ none) :
    ReplayInv (applyOp st op) := by
  obtain ⟨h1, h2, h3, h4, h5, h6⟩ := hInv
  cases op with
  | register d =>
    exact ⟨h1, h2, h3, h4, h5, h6⟩
  | heartbeat i =>
    unfold applyOp updateHeartbeat
    cases hl : lookupA st.reg.instances i <;> simp only [hl] <;> exact ⟨h1, h2, h3, h4, h5, h6⟩
  | removeInst i =>
    unfold applyOp removeInstance
    cases hl : lookupA st.reg.instances i
    · simp only [hl]
      exact ⟨h1, h2, h3, h4, h5, h6⟩
    · simp only [hl]
      refine ⟨?_, ?_, h3, h4, ?_, ?_⟩
      · rw [loadSessions_append, h1, sweepSessions_ends, List.map_map]
        have hmc : ∀ p ∈ st.reg.sessions.filter (ownedActive i),
            ((fun sid => SessionRecord.end_ sid st.clock) ∘ (fun p => p.2.sessionId)) p
              = (fun p => SessionRecord.end_ p.1 st.clock) p := by
          intro p hp
          simp [h6 p (List.mem_of_mem_filter hp)]
        rw [List.map_congr_left hmc, foldl_endRecords i st.clock st.reg.sessions h2,
          ← sweepSessions_fst]
      · simpa [keysA_sweepSessions] using h2
      · intro sid hnone
        apply h5 sid
        rw [lookupA_eq_none_iff] at hnone ⊢
        simpa [keysA_sweepSessions] using hnone
      · rw [sweepSessions_fst]
        intro p hp
        obtain ⟨q, hq, rfl⟩ := List.mem_map.mp hp
        by_cases ho : ownedActive i q = true
        · simp only [ho, if_true]
          exact h6 q hq
        · simp only [ho, Bool.false_eq_true, if_false]
          exact h6 q hq
  | sessionStart i d =>
    unfold applyOp startSession
    cases hl : lookupA st.reg.sessions d.sessionId with
    | none =>
      simp only [hl]
      refine ⟨?_, ?_, ?_, h4, ?_, ?_⟩
      · rw [loadSessions_append_one, h1]
        rfl
      · exact nodup_keysA_setA _ _ _ h2
      · intro sid
        dsimp only
        by_cases hq : sid = d.sessionId
        · subst hq
          rw [updF_self, h5 d.sessionId hl]
          simp [dropToMax]
        · rw [updF_ne _ _ _ _ hq]
          exact h3 sid
      · intro sid hnone
        apply h5 sid
        by_cases hq : sid = d.sessionId
        · subst hq
          rw [lookupA_setA_self] at hnone
          cases hnone
        · rwa [lookupA_setA_ne _ _ _ _ hq] at hnone
      · exact keyInv_setA _ _ _ rfl h6
    | some s =>
      simp only [hl]
      refine ⟨?_, ?_, h3, h4, ?_, ?_⟩
      · rw [loadSessions_append_one, h1]
        exact modifyA_congr _ _ _ _ (fun t => applyUpdate_reactivation t i)
      · simpa [keysA_modifyA] using h2
      · intro sid hnone
        apply h5 sid
        by_cases hq : sid = d.sessionId
        · subst hq
          rw [lookupA_modifyA_self, hl] at hnone
          cases hnone
        · rwa [lookupA_modifyA_ne _ _ _ _ hq] at hnone
      · exact keyInv_modifyA _ _ _ (fun t => rfl) h6
  | sessionUpdate sid' u =>
    unfold applyOp updateSession
    cases hl : lookupA st.reg.sessions sid' with
    | none =>
      simp only [hl]
      exact ⟨h1, h2, h3, h4, h5, h6⟩
    | some s =>
      simp only [hl]
      refine ⟨?_, ?_, h3, h4, ?_, ?_⟩
      · rw [loadSessions_append_one, h1]
        rfl
      · simpa [keysA_modifyA] using h2
      · intro sid hnone
        apply h5 sid
        by_cases hq : sid = sid'
        · subst hq
          rw [lookupA_modifyA_self, hl] at hnone
          cases hnone
        · rwa [lookupA_modifyA_ne _ _ _ _ hq] at hnone
      · exact keyInv_modifyA _ _ _ (fun t => applyUpdate_sessionId t u) h6
  | sessionEnd sid' =>
    unfold applyOp endSession
    cases hl : lookupA st.reg.sessions sid' with
    | none =>
      simp only [hl]
      exact ⟨h1, h2, h3, h4, h5, h6⟩
    | some s =>
      simp only [hl]
      refine ⟨?_, ?_, h3, h4, ?_, ?_⟩
      · rw [loadSessions_append_one, h1]
        rfl
      · simpa [keysA_modifyA] using h2
      · intro sid hnone
        apply h5 sid
        by_cases hq : sid = sid'
        · subst hq
          rw [lookupA_modifyA_self, hl] at hnone
          cases hnone
        · rwa [lookupA_modifyA_ne _ _ _ _ hq] at hnone
      · exact keyInv_modifyA _ _ _ (fun t => rfl) h6
  | transcriptEvent d =>
    have hkey : sanitizeId d.sessionId = d.sessionId :=
      hsafe d.sessionId (by simp [opSessionIds])
    have hlook := hstart d rfl
    simp only [applyOp]
    unfold addTranscriptEvent
    cases hsrc : d.sourceId with
    | some x =>
      by_cases hm : x ∈ st.reg.seenSourceIds d.sessionId
      · have hc : (st.reg.seenSourceIds d.sessionId).contains x = true := by simpa using hm
        simp only [hc, if_true]
        exact ⟨h1, h2, h3, h4, h5, h6⟩
      · have hc : (st.reg.seenSourceIds d.sessionId).contains x = false := by
          simp only [Bool.eq_false_iff]
          simpa using hm
        simp only [hc, Bool.false_eq_true, if_false, hkey]
        refine ⟨h1, h2, ?_, ?_, ?_, h6⟩
        · intro sid
          dsimp only
          by_cases hq : sid = d.sessionId
          · subst hq
            rw [updF_self, updF_self, h3 d.sessionId]
            exact dropToMax_push _ _
          · rw [updF_ne _ _ _ _ hq, updF_ne _ _ _ _ hq]
            exact h3 sid
        · intro sid y
          dsimp only
          by_cases hq : sid = d.sessionId
          · subst hq
            rw [updF_self, updF_self, mem_addToSet]
            rw [h4 d.sessionId y]
            constructor
            · rintro (⟨e, he, hy⟩ | rfl)
              · exact ⟨e, List.mem_append_left _ he, hy⟩
              · exact ⟨_, List.mem_append_right _ (List.mem_singleton_self _), by simp [hsrc]⟩
            · rintro ⟨e, he, hy⟩
              rcases List.mem_append.mp he with he | he
              · exact Or.inl ⟨e, he, hy⟩
              · rw [List.mem_singleton] at he
                subst he
                simp only [hsrc] at hy
                cases hy
                exact Or.inr rfl
          · rw [updF_ne _ _ _ _ hq, updF_ne _ _ _ _ hq]
            exact h4 sid y
        · intro sid hnone
          dsimp only
          have hq : sid ≠ d.sessionId := by
            intro hh
            exact hlook (hh ▸ hnone)
          rw [updF_ne _ _ _ _ hq]
          exact h5 sid hnone
    | none =>
      simp only [Bool.false_eq_true, if_false, hkey]
      refine ⟨h1, h2, ?_, ?_, ?_, h6⟩
      · intro sid
        dsimp only
        by_cases hq : sid = d.sessionId
        · subst hq
          rw [updF_self, updF_self, h3 d.sessionId]
          exact dropToMax_push _ _
        · rw [updF_ne _ _ _ _ hq, updF_ne _ _ _ _ hq]
          exact h3 sid
      · intro sid y
        dsimp only
        by_cases hq : sid = d.sessionId
        · subst hq
          rw [updF_self, h4 d.sessionId y]
          constructor
          · rintro ⟨e, he, hy⟩
            exact ⟨e, List.mem_append_left _ he, hy⟩
          · rintro ⟨e, he, hy⟩
            rcases List.mem_append.mp he with he | he
            · exact ⟨e, he, hy⟩
            · rw [List.mem_singleton] at he
              subst he
              simp only [hsrc] at hy
              cases hy
        · rw [updF_ne _ _ _ _ hq]
          exact h4 sid y
      · intro sid hnone
        dsimp only
        have hq : sid ≠ d.sessionId := by
          intro hh
          exact hlook (hh ▸ hnone)
        rw [updF_ne _ _ _ _ hq]
        exact h5 sid hnone

theorem traceSessionIds_cons (op : Op) (rest : List Op) :
    traceSessionIds (op :: rest) = opSessionIds op ++ traceSessionIds rest := rfl

theorem replayInv_run (ops : List Op) :
    ∀ (st : SystemState) (started : List String),
    ReplayInv st →
    (∀ sid ∈ started, lookupA st.reg.sessions sid ≠ none) →
    (∀ sid ∈ traceSessionIds ops, sanitizeId sid = sid) →
    eventsAfterStart started ops = true →
    ReplayInv (run st ops) := by
  induction ops with
  | nil =>
    intro st started hInv _ _ _
    exact hInv
  | cons op rest ih =>
    intro st started hInv hstarted hsafe horder
    have hsafe_op : ∀ sid ∈ opSessionIds op, sanitizeId sid = sid := fun sid hs =>
      hsafe sid (by rw [traceSessionIds_cons]; exact List.mem_append_left _ hs)
    have hsafe_rest : ∀ sid ∈ traceSessionIds rest, sanitizeId sid = sid := fun sid hs =>
      hsafe sid (by rw [traceSessionIds_cons]; exact List.mem_append_right _ hs)
    cases op with
    | register d =>
      exact ih _ started (replayInv_applyOp st _ hInv hsafe_op (fun d' h' => nomatch h'))
        (fun sid hs => lookupA_isSome_applyOp st _ sid (hstarted sid hs)) hsafe_rest horder
    | heartbeat i =>
      exact ih _ started (replayInv_applyOp st _ hInv hsafe_op (fun d' h' => nomatch h'))
        (fun sid hs => lookupA_isSome_applyOp st _ sid (hstarted sid hs)) hsafe_rest horder
    | removeInst i =>
      exact ih _ started (replayInv_applyOp st _ hInv hsafe_op (fun d' h' => nomatch h'))
        (fun sid hs => lookupA_isSome_applyOp st _ sid (hstarted sid hs)) hsafe_rest horder
    | sessionUpdate sid' u =>
      exact ih _ started (replayInv_applyOp st _ hInv hsafe_op (fun d' h' => nomatch h'))
        (fun sid hs => lookupA_isSome_applyOp st _ sid (hstarted sid hs)) hsafe_rest horder
    | sessionEnd sid' =>
      exact ih _ started (replayInv_applyOp st _ hInv hsafe_op (fun d' h' => nomatch h'))
        (fun sid hs => lookupA_isSome_applyOp st _ sid (hstarted sid hs)) hsafe_rest horder
    | sessionStart i d =>
      refine ih _ (d.sessionId :: started)
        (replayInv_applyOp st _ hInv hsafe_op (fun d' h' => nomatch h')) ?_ hsafe_rest horder
      intro sid hs
      rcases List.mem_cons.mp hs with rfl | hs
      · exact startSession_lookup_some st i d
      · exact lookupA_isSome_applyOp st _ sid (hstarted sid hs)
    | transcriptEvent d =>
      have hc : started.contains d.sessionId = true ∧ eventsAfterStart started rest = true := by
        simpa [eventsAfterStart, Bool.and_eq_true] using horder
      have hmem : d.sessionId ∈ started := by simpa using hc.1
      have hlook : lookupA st.reg.sessions d.sessionId ≠ none := hstarted _ hmem
      exact ih _ started
        (replayInv_applyOp st _ hInv hsafe_op (fun d' h' => by cases h'; exact hlook))
        (fun sid hs => lookupA_isSome_applyOp st _ sid (hstarted sid hs)) hsafe_rest hc.2

theorem replayInv_initState : ReplayInv initState := by
  refine ⟨rfl, by simp [initState, keysA], ?_, ?_, ?_, ?_⟩
  · intro sid
    simp [initState, dropToMax]
  · intro sid x
    simp [initState]
  · intro sid _
    rfl
  · intro p hp
    simp [initState] at hp

theorem transcriptLogs_run (ops : List Op) :
    ∀ (st : SystemState) (sid : String),
    sid ∉ traceSessionIds ops →
    (∀ q ∈ traceSessionIds ops, sanitizeId q = q) →
    (run st ops).per.transcriptLogs sid = st.per.transcriptLogs sid := by
  induction ops with
  | nil =>
    intro st sid _ _
    rfl
  | cons op rest ih =>
    intro st sid hmem hsafe
    have hm1 : sid ∉ opSessionIds op := fun h =>
      hmem (by rw [traceSessionIds_cons]; exact List.mem_append_left _ h)
    have hm2 : sid ∉ traceSessionIds rest := fun h =>
      hmem (by rw [traceSessionIds_cons]; exact List.mem_append_right _ h)
    have hs1 : ∀ q ∈ opSessionIds op, sanitizeId q = q := fun q hq =>
      hsafe q (by rw [traceSessionIds_cons]; exact List.mem_append_left _ hq)
    have hs2 : ∀ q ∈ traceSessionIds rest, sanitizeId q = q := fun q hq =>
      hsafe q (by rw [traceSessionIds_cons]; exact List.mem_append_right _ hq)
    calc (run st (op :: rest)).per.transcriptLogs sid
        = (run (applyOp st op) rest).per.transcriptLogs sid := rfl
      _ = (applyOp st op).per.transcriptLogs sid := ih (applyOp st op) sid hm2 hs2
      _ = st.per.transcriptLogs sid := transcriptLogs_applyOp st op sid hm1 hs1

/-- C3 (amended): for every execution in which every touched session id
is unchanged by the transcript-file-name sanitisation, every transcript
event targets an already-started session, and no session's durable
transcript log exceeds the in-memory retention bound, restarting and
replaying the logs in file order (start creates, update merges, end
forces idle; transcript files loaded per session) reconstructs the
session map — status and fields — and every per-session transcript
list exactly as they were before the restart, and rebuilds the
seen-source-id deduplication index with exactly the membership it had
before the restart. -/
theorem replay_reconstruction (ops : List Op)
    (hsafe : ∀ sid ∈ traceSessionIds ops, sanitizeId sid = sid)
    (horder : eventsAfterStart [] ops = true)
    (hbound : ∀ sid ∈ traceSessionIds ops,
       ((run initState ops).per.transcriptLogs sid).length ≤ MAX_EVENTS_PER_SESSION) :
    (restartState (run initState ops).per).reg.sessions = (run initState ops).reg.sessions ∧
    (∀ sid, (restartState (run initState ops).per).reg.transcripts sid
       = (run initState ops).reg.transcripts sid) ∧
    (∀ sid x, x ∈ (restartState (run initState ops).per).reg.seenSourceIds sid
       ↔ x ∈ (run initState ops).reg.seenSourceIds sid) := by
  obtain ⟨h1, h2, h3, h4, h5, h6⟩ :=
    replayInv_run ops initState [] replayInv_initState (by simp) hsafe horder
  refine ⟨h1, ?_, ?_⟩
  · intro sid
    show (run initState ops).per.transcriptLogs sid = (run initState ops).reg.transcripts sid
    rw [h3 sid]
    by_cases hmem : sid ∈ traceSessionIds ops
    · exact (dropToMax_of_le _ (hbound sid hmem)).symm
    · rw [transcriptLogs_run ops initState sid hmem hsafe]
      simp [initState, dropToMax]
  · intro sid x
    show x ∈ collectSourceIds ((run initState ops).per.transcriptLogs sid) ↔ _
    rw [mem_collectSourceIds, h4 sid x]

/-- C3 counterexample: the claim as stated fails on the code.  With
session id "a.b" — whose transcript file is named after the sanitised
id "a_b" — the in-memory transcript of "a.b" holds one event before
the restart, but after restarting and replaying, `transcripts "a.b"`
is empty (the event resurfaces under the key "a_b" instead), so the
reconstructed state is not identical to the pre-restart state. -/
theorem replay_reconstruction_cex :
    (run initState cexOps).reg.transcripts "a.b"
      = [{ eventId := 0, sessionId := "a.b", ts := 2, ty := TEType.message,
           payload := "p", sourceId := none }] ∧
    (restartState (run initState cexOps).per).reg.transcripts "a.b" = [] ∧
    ¬ ((restartState (run initState cexOps).per).reg.transcripts "a.b"
        = (run initState cexOps).reg.transcripts "a.b") := by
  decide

/-- C3 witness: a concrete safe execution — register, start "s1", one
deduplicated event, end — replays to the identical state. -/
theorem replay_reconstruction_witness :
    (∀ sid ∈ traceSessionIds opsC3, sanitizeId sid = sid) ∧
    eventsAfterStart [] opsC3 = true ∧
    (∀ sid ∈ traceSessionIds opsC3,
       ((run initState opsC3).per.transcriptLogs sid).length ≤ MAX_EVENTS_PER_SESSION) ∧
    ((restartState (run initState opsC3).per).reg.sessions = (run initState opsC3).reg.sessions ∧
     (∀ sid, (restartState (run initState opsC3).per).reg.transcripts sid
        = (run initState opsC3).reg.transcripts sid) ∧
     (∀ sid x, x ∈ (restartState (run initState opsC3).per).reg.seenSourceIds sid
        ↔ x ∈ (run initState opsC3).reg.seenSourceIds sid)) :=
  ⟨by decide, by decide, by decide,
   replay_reconstruction opsC3 (by decide) (by decide) (by decide)⟩

end Deadhand
